import Mathlib

/-!
Verification development for the pyvospace server-side data model and
services: a shallow embedding, in Lean 4, of the VOSpace node/property/
transfer/job data model (`pyvospace/core/model.py`), the node persistence
layer (`pyvospace/server/database.py`), the POSIX backend authorization
policy (`pyvospace/server/spaces/posix/auth.py`), the NGAS streaming
wrappers (`pyvospace/server/spaces/ngas/utils.py`) and the UWS job engine
(`pyvospace/server/uws.py`), together with theorems settling the frozen
claims about them.

Python values that may be `None` are embedded as `Option`; code that can
raise becomes `Except VErr`; machine-level details (asyncio scheduling,
lxml string encoding) are embedded at the level of the values they
transport (XML element trees, byte lists, database row lists).
-/

/-- The error taxonomy shared across components (`pyvospace/core/exception.py`
is not included in the sources; the kinds and their roles are those of
spec section 4.1, plus Python-builtin failure kinds (`typeError`,
`indexError`, `attributeError`, `assertionError`) that the embedded code
can hit). -/
inductive VErr where
  | invalidArgument (msg : String)
  | invalidURI (msg : String)
  | invalidXML (msg : String)
  | vospaceError (code : Nat) (msg : String)
  | nodeDoesNotExist (msg : String)
  | containerDoesNotExist (msg : String)
  | duplicateNode (msg : String)
  | permissionDenied (msg : String)
  | typeError
  | indexError
  | attributeError
  | assertionError
  deriving Repr, DecidableEq

/-- Modelled from the spec: `pyvospace/core/exception.py` is not under the
given sources, and `Transfer.create_transfer` raises `NotImplementedError`
from that module; spec sections 4.1 and 7 classify unimplemented transfer
directions under the generic `VOSpaceError(code, message)` kind, so the
raised value is embedded as a generic `VOSpaceError`. -/
def NotImplementedErr : VErr := VErr.vospaceError 501 "Not Implemented."

/-- A node property: `Property` from `pyvospace/core/model.py` (uri, value,
read_only) plus the `DeleteProperty` sentinel subclass, distinguished here
by the `isDelete` flag (serialisation tests `isinstance(prop, DeleteProperty)`).
`value` is `Option` because Python allows `None`; `read_only` is `Option Bool`
because the XML parser can leave it `None` when the attribute is absent. -/
structure VProperty where
  uri : String
  value : Option String
  read_only : Option Bool
  isDelete : Bool
  deriving Repr, DecidableEq

/-- `Property(uri, value, read_only)` (regular property constructor). -/
def mkProperty (uri : String) (value : Option String) (read_only : Bool := true) : VProperty :=
  ⟨uri, value, some read_only, false⟩

/-- `DeleteProperty(uri)`: `Property(uri, None, False)` with the delete flag. -/
def mkDeleteProperty (uri : String) : VProperty :=
  ⟨uri, none, some false, true⟩

/-- `PROTECTED_URI` from `pyvospace/server/spaces/posix/auth.py` (the
commented-out entries of the source list are omitted, as in the source). -/
def PROTECTED_URI : List String :=
  ["ivo://ivoa.net/vospace/core#creator",
   "ivo://ivoa.net/vospace/core#type",
   "ivo://ivoa.net/vospace/core#format",
   "ivo://ivoa.net/vospace/core#identifier",
   "ivo://ivoa.net/vospace/core#source",
   "ivo://ivoa.net/vospace/core#language",
   "ivo://ivoa.net/vospace/core#relation",
   "ivo://ivoa.net/vospace/core#coverage",
   "ivo://ivoa.net/vospace/core#rights",
   "ivo://ivoa.net/vospace/core#availableSpace",
   "ivo://ivoa.net/vospace/core#groupread",
   "ivo://ivoa.net/vospace/core#groupwrite",
   "ivo://ivoa.net/vospace/core#publicread",
   "ivo://ivoa.net/vospace/core#quota",
   "ivo://ivoa.net/vospace/core#length",
   "ivo://ivoa.net/vospace/core#mtime",
   "ivo://ivoa.net/vospace/core#ctime",
   "ivo://ivoa.net/vospace/core#btime"]

/-- A row of the `users` table: the fields the authorization policy reads. -/
structure UserRow where
  username : String
  admin : Bool
  groupread : List String
  groupwrite : List String
  deriving Repr, DecidableEq

/-- The node fields the authorization policy reads from its context. -/
structure AuthNode where
  path : String
  owner : Option String
  group_read : List String
  group_write : List String
  properties : List VProperty
  deriving Repr, DecidableEq

/-- `DBUserNodeAuthorizationPolicy._any_value_in_lists(a, b)`:
`any(i in a for i in b)`. -/
def any_value_in_lists (a b : List String) : Bool :=
  b.any (fun i => a.contains i)

/-- `DBUserNodeAuthorizationPolicy._any_property_in_protected(a)`:
`any(i.uri in PROTECTED_URI for i in a)`, applied to the node's property
collection. -/
def any_property_in_protected (a : List VProperty) : Bool :=
  a.any (fun i => PROTECTED_URI.contains i.uri)

/-- Python attribute lookup `.values()` on a node's property collection,
as the source performs it at auth.py lines 94 and 109: `Node.properties`
returns the plain list `self._properties` (model.py lines 416, 577-578,
kept a list by every mutator), and a Python list has no `values` method,
so the lookup raises `AttributeError` unconditionally. -/
def propertiesValues (_properties : List VProperty) : Except VErr (List VProperty) :=
  throw VErr.attributeError

/-- The `permission == 'createNode'` branch of
`DBUserNodeAuthorizationPolicy.permits` (auth.py lines 91-105), faithful
to the source: the branch's first statement evaluates
`self._any_property_in_protected(node.properties.values())`, whose
`.values()` lookup raises `AttributeError`; the protected-property,
admin, ownership and group-intersection logic below it is the decision
matrix that would follow, unreachable as written. -/
def permits_createNode (user : UserRow) (identity : String)
    (parent : AuthNode) (node : AuthNode) : Except VErr Bool := do
  let vals ← propertiesValues node.properties
  let modify_properties := any_property_in_protected vals
  if modify_properties then
    pure false
  else if parent.path = "/" && user.admin then
    pure true
  else if parent.owner = some identity then
    pure true
  else
    pure (any_value_in_lists parent.group_write user.groupwrite)

/-- The `permission == 'setNode'` branch of
`DBUserNodeAuthorizationPolicy.permits` (auth.py lines 107-115), faithful
to the source: `context.properties.values()` raises `AttributeError`
before the protected-property, owner or group check can run. -/
def permits_setNode (user : UserRow) (identity : String) (node : AuthNode) :
    Except VErr Bool := do
  let vals ← propertiesValues node.properties
  let modify_properties := any_property_in_protected vals
  if modify_properties then
    pure false
  else if node.owner = some identity then
    pure true
  else
    pure (any_value_in_lists node.group_write user.groupwrite)

/-- C1 (code bug): a `createNode` or `setNode` permission request never
returns the claimed denial decision `false` — for every identity, user
record, parent and node (protected properties present or not), `permits`
raises `AttributeError`, because auth.py lines 94/109 call `.values()` on
`node.properties`, which is a plain list in the shipped model
(model.py lines 416, 577-578).  The protected-property denial the claim
(and spec section 4.5) describes is the evident intent of the branch body,
but it is unreachable as written. -/
theorem C1_permits_raises_attribute_error
    (user : UserRow) (identity : String) (parent node : AuthNode) :
    permits_createNode user identity parent node =
      Except.error VErr.attributeError ∧
    permits_setNode user identity node = Except.error VErr.attributeError :=
  ⟨rfl, rfl⟩

/-- Witness for C1: the recorded failing input — an admin owner in all the
groups, creating or updating a node that carries the protected `length`
property, still gets `AttributeError` rather than any Boolean decision. -/
theorem C1_permits_raises_attribute_error_witness :
    permits_createNode ⟨"alice", true, ["g1"], ["g1"]⟩ "alice"
      ⟨"/", some "alice", ["g1"], ["g1"], []⟩
      ⟨"a/b", some "alice", ["g1"], ["g1"],
        [mkProperty "ivo://ivoa.net/vospace/core#length" (some "10")]⟩ =
      Except.error VErr.attributeError ∧
    permits_setNode ⟨"alice", true, ["g1"], ["g1"]⟩ "alice"
      ⟨"a/b", some "alice", ["g1"], ["g1"],
        [mkProperty "ivo://ivoa.net/vospace/core#length" (some "10")]⟩ =
      Except.error VErr.attributeError :=
  C1_permits_raises_attribute_error
    ⟨"alice", true, ["g1"], ["g1"]⟩ "alice"
    ⟨"/", some "alice", ["g1"], ["g1"], []⟩
    ⟨"a/b", some "alice", ["g1"], ["g1"],
      [mkProperty "ivo://ivoa.net/vospace/core#length" (some "10")]⟩

/-- Python `str.split(sep)` over the character list: splits at every
occurrence of `sep`, keeping empty segments (structural recursion so that
the kernel can evaluate it). -/
def pySplitAux (sep : Char) : List Char → List Char → List String
  | [], acc => [String.mk acc.reverse]
  | c :: cs, acc =>
    if c = sep then String.mk acc.reverse :: pySplitAux sep cs []
    else pySplitAux sep cs (c :: acc)

/-- Python `s.split(sep)` for a one-character separator. -/
def pySplit (s : String) (sep : Char) : List String :=
  pySplitAux sep s.data []

/-- `path.split('/')` with empty segments filtered, as in
`list(filter(None, path.split('/')))`. -/
def splitPath (path : String) : List String :=
  (pySplit path '/').filter (fun s => s ≠ "")

/-- Code-point lexicographic comparison of character lists (Python's
string `<=`). -/
def charListLe : List Char → List Char → Bool
  | [], _ => true
  | _ :: _, [] => false
  | a :: as, b :: bs => if a = b then charListLe as bs else decide (a < b)

/-- Python string `<=` (code-point lexicographic order). -/
def pyStrLe (s t : String) : Bool := charListLe s.data t.data

/-- Stable insertion of `x` into a list sorted ascending on `key`
(`x` is placed before elements with an equal key, as Python's stable
`list.sort` keeps earlier elements first). -/
def insortBy (key : α → String) (x : α) : List α → List α
  | [] => [x]
  | y :: ys => if pyStrLe (key x) (key y) then x :: y :: ys else y :: insortBy key x ys

/-- Stable sort ascending on `key`: the behaviour of Python's
`list.sort(key=...)` and of SQL `order by ... asc`. -/
def sortBy (key : α → String) : List α → List α
  | [] => []
  | x :: xs => insortBy key x (sortBy key xs)

/-- A row of the `nodes` table (schema of spec section 6; `path` is the
dot-joined hierarchical label). -/
structure NodeRow where
  type : Nat
  name : String
  path : String
  owner : Option String
  space_id : Nat
  link : Option String
  busy : Bool
  groupread : List String
  groupwrite : List String
  deriving Repr, DecidableEq

/-- `NodeDatabase._get_node_and_parent(path, conn)` (database.py lines
64-92) over a list-of-rows database state.  The embedded SQL predicate
follows SQL operator precedence: in
`where path=$1 or path=$2 and space_id=$3`, `and` binds tighter than `or`,
so a row matches when `path = $1` holds in ANY space, or
`path = $2 and space_id = $3` holds.  `order by path asc` is the stable
ascending sort on `path`.  The source's `assert` on the single-row case
becomes an `assertionError`. -/
def get_node_and_parent (space_id : Nat) (path : String) (db : List NodeRow) :
    Except VErr (Option NodeRow × Option NodeRow) := do
  let path_list := splitPath path
  if path_list = [] then
    throw (VErr.vospaceError 400 "Invalid URI. Path is empty")
  else
    let path_parent_tree := String.intercalate "." path_list.dropLast
    let path_tree := String.intercalate "." path_list
    let result := sortBy (fun r => r.path)
      (db.filter (fun r =>
        r.path = path_tree || (r.path = path_parent_tree && r.space_id = space_id)))
    match result with
    | [r0] =>
      if path_parent_tree ≠ "" then
        if r0.path = path_parent_tree then
          pure (some r0, none)
        else
          throw VErr.assertionError
      else
        pure (none, some r0)
    | [r0, r1] => pure (some r0, some r1)
    | _ => pure (none, none)

deriving instance DecidableEq for Except

/-- A `nodes` row of a foreign space (space 2) at the root-level path `a`. -/
def foreignSpaceRow : NodeRow :=
  ⟨4, "a", "a", some "bob", 2, none, false, [], []⟩

/-- C2 (code bug): the parent-and-self locking read is NOT scoped to the
operation's space.  With space 1 and path `a`, the empty database yields
`(None, None)`, but adding a single row that belongs only to space 2 makes
the same read return that foreign row as the target, because SQL precedence
parses the filter as `path=$1 OR (path=$2 AND space_id=$3)` — the `path=$1`
disjunct carries no space condition.  Two states differing only in another
space's rows thus produce different results. -/
theorem C2_locking_read_not_space_scoped :
    foreignSpaceRow.space_id = 2 ∧
    get_node_and_parent 1 "a" [] = Except.ok (none, none) ∧
    get_node_and_parent 1 "a" [foreignSpaceRow] =
      Except.ok (none, some foreignSpaceRow) ∧
    get_node_and_parent 1 "a" [] ≠ get_node_and_parent 1 "a" [foreignSpaceRow] := by
  refine ⟨rfl, by decide, by decide, by decide⟩

/-- A row of the `properties` table (schema of spec section 6;
`value` is nullable, hence `Option`). -/
structure PropRow where
  uri : String
  value : Option String
  read_only : Bool
  node_path : String
  space_id : Nat
  deriving Repr, DecidableEq

/-- SQL `properties.value != $2` under three-valued logic: the comparison
is satisfied only when both sides are non-NULL and differ (a NULL on either
side makes the predicate unknown, which filters the row out). -/
def sqlValueNeq (stored supplied : Option String) : Bool :=
  match stored, supplied with
  | some a, some b => a ≠ b
  | _, _ => false

/-- The `(uri, node_path, space_id)` uniqueness key of the `properties`
table (the conflict target of the upsert). -/
def samePropKey (q : PropRow) (uri node_path : String) (space_id : Nat) : Bool :=
  q.uri = uri && q.node_path = node_path && q.space_id = space_id

/-- One upsert of `update_properties` (database.py lines 190-194):
`INSERT ... on conflict (uri, node_path, space_id) do update set value=$2
where properties.read_only=False and properties.value!=$2`.  On a key
conflict the stored row's value is replaced only when the row is not
read-only and the SQL inequality is satisfied; otherwise the statement is
a no-op.  Without a conflict the row is appended. -/
def upsertProp (db : List PropRow) (r : PropRow) : List PropRow :=
  if db.any (fun q => samePropKey q r.uri r.node_path r.space_id) then
    db.map (fun q =>
      if samePropKey q r.uri r.node_path r.space_id &&
         q.read_only = false && sqlValueNeq q.value r.value then
        { q with value := r.value }
      else q)
  else
    db ++ [r]

/-- The delete statement of `update_properties` (database.py lines 197-199):
`DELETE FROM properties WHERE uri=any($1) AND node_path=$2 and space_id=$3
and read_only=False`. -/
def deleteProps (db : List PropRow) (uris : List String) (node_path : String)
    (space_id : Nat) : List PropRow :=
  db.filter (fun q =>
    !(uris.contains q.uri && q.node_path = node_path && q.space_id = space_id &&
      q.read_only = false))

/-- The database effect of `NodeDatabase.update_properties` (database.py
lines 166-199) after the lock/permission phase: partition the node's
supplied properties into delete markers and upserts, run the upserts
(in list order), then run the delete. -/
def update_properties_db (props : List VProperty) (node_path_tree : String)
    (space_id : Nat) (db : List PropRow) : List PropRow :=
  let node_props_delete := (props.filter (fun p => p.isDelete)).map (fun p => p.uri)
  let node_props_insert := (props.filter (fun p => !p.isDelete)).map
    (fun p => PropRow.mk p.uri p.value (p.read_only.getD false) node_path_tree space_id)
  deleteProps (node_props_insert.foldl upsertProp db)
    node_props_delete node_path_tree space_id

/-- The delete list and the insert list contain what `update_properties`
partitions out of the supplied property list; for a single regular
property `p` the statement reduces to one upsert, for a single delete
marker to one delete.  Auxiliary unfolding lemma. -/
theorem update_properties_db_single_regular (p : VProperty) (hp : p.isDelete = false)
    (node_path : String) (space_id : Nat) (db : List PropRow) :
    update_properties_db [p] node_path space_id db =
      deleteProps
        (upsertProp db ⟨p.uri, p.value, p.read_only.getD false, node_path, space_id⟩)
        [] node_path space_id := by
  unfold update_properties_db
  simp [hp, List.filter, List.foldl]

/-- Auxiliary unfolding lemma for a single delete marker. -/
theorem update_properties_db_single_delete (uri : String)
    (node_path : String) (space_id : Nat) (db : List PropRow) :
    update_properties_db [mkDeleteProperty uri] node_path space_id db =
      deleteProps db [uri] node_path space_id := by
  unfold update_properties_db
  simp [mkDeleteProperty, List.filter, List.foldl]

/-- `deleteProps` with an empty uri list keeps every row. -/
theorem deleteProps_nil (db : List PropRow) (node_path : String) (space_id : Nat) :
    deleteProps db [] node_path space_id = db := by
  unfold deleteProps
  simp


/-- `contains` over the singleton uri list of a single delete marker. -/
theorem contains_singleton_uri (q : PropRow) (u : String) :
    ([u].contains q.uri) = (decide (q.uri = u)) := by
  by_cases h : q.uri = u <;> simp [h]

/-- C5 (amended): with a stored row `r` under the table's uniqueness
constraint, (a) an upsert whose SQL inequality is not satisfied (equal
values, or a NULL on either side) leaves the database unchanged;
(b) updating a read-only row is a no-op; (c) deleting a read-only row via
a delete marker is a no-op; (d) a non-read-only row with a present stored
value is updated to a present supplied value; (e) a non-read-only row is
removed by a delete marker. -/
theorem C5_property_update_semantics
    (db : List PropRow) (r : PropRow) (hr : r ∈ db)
    (huniq : ∀ q ∈ db, samePropKey q r.uri r.node_path r.space_id = true → q = r)
    (p : VProperty) (hpuri : p.uri = r.uri) :
    (p.isDelete = false → sqlValueNeq r.value p.value = false →
      update_properties_db [p] r.node_path r.space_id db = db) ∧
    (p.isDelete = false → r.read_only = true →
      update_properties_db [p] r.node_path r.space_id db = db) ∧
    (r.read_only = true →
      update_properties_db [mkDeleteProperty r.uri] r.node_path r.space_id db = db) ∧
    (p.isDelete = false → r.read_only = false → r.value.isSome → p.value.isSome →
      update_properties_db [p] r.node_path r.space_id db =
        db.map (fun q =>
          if samePropKey q r.uri r.node_path r.space_id then
            { q with value := p.value }
          else q)) ∧
    (r.read_only = false →
      update_properties_db [mkDeleteProperty r.uri] r.node_path r.space_id db =
        db.filter (fun q => !samePropKey q r.uri r.node_path r.space_id)) := by
  have hkeyr : samePropKey r r.uri r.node_path r.space_id = true := by
    simp [samePropKey]
  have hany : db.any (fun q => samePropKey q r.uri r.node_path r.space_id) = true :=
    List.any_eq_true.mpr ⟨r, hr, hkeyr⟩
  have hdelcond : ∀ q : PropRow,
      ([r.uri].contains q.uri && q.node_path = r.node_path &&
        q.space_id = r.space_id && q.read_only = false) =
      (samePropKey q r.uri r.node_path r.space_id && q.read_only = false) := by
    intro q
    rw [show ([r.uri].contains q.uri && decide (q.node_path = r.node_path) &&
          decide (q.space_id = r.space_id)) =
          samePropKey q r.uri r.node_path r.space_id by
        rw [contains_singleton_uri]; rfl]
  refine ⟨?_, ?_, ?_, ?_, ?_⟩
  · intro hpd hneq
    rw [update_properties_db_single_regular p hpd, deleteProps_nil]
    unfold upsertProp
    simp only [hpuri, hany, if_true]
    have hmapid : ∀ q ∈ db,
        (if samePropKey q r.uri r.node_path r.space_id &&
            q.read_only = false && sqlValueNeq q.value p.value then
          { q with value := p.value } else q) = q := by
      intro q hq
      by_cases hkey : samePropKey q r.uri r.node_path r.space_id = true
      · have hqr : q = r := huniq q hq hkey
        subst hqr
        simp [hneq]
      · simp [hkey]
    rw [List.map_congr_left hmapid]
    simp
  · intro hpd hro
    rw [update_properties_db_single_regular p hpd, deleteProps_nil]
    unfold upsertProp
    simp only [hpuri, hany, if_true]
    have hmapid : ∀ q ∈ db,
        (if samePropKey q r.uri r.node_path r.space_id &&
            q.read_only = false && sqlValueNeq q.value p.value then
          { q with value := p.value } else q) = q := by
      intro q hq
      by_cases hkey : samePropKey q r.uri r.node_path r.space_id = true
      · have hqr : q = r := huniq q hq hkey
        subst hqr
        simp [hro]
      · simp [hkey]
    rw [List.map_congr_left hmapid]
    simp
  · intro hro
    rw [update_properties_db_single_delete]
    unfold deleteProps
    have hall : ∀ q ∈ db,
        (!([r.uri].contains q.uri && q.node_path = r.node_path &&
           q.space_id = r.space_id && q.read_only = false)) = true := by
      intro q hq
      rw [hdelcond q]
      by_cases hkey : samePropKey q r.uri r.node_path r.space_id = true
      · have hqr : q = r := huniq q hq hkey
        subst hqr
        simp [hro]
      · simp [hkey]
    rw [List.filter_congr hall]
    simp
  · intro hpd hro hrv hpv
    rw [update_properties_db_single_regular p hpd, deleteProps_nil]
    unfold upsertProp
    simp only [hpuri, hany, if_true]
    refine List.map_congr_left ?_
    intro q hq
    by_cases hkey : samePropKey q r.uri r.node_path r.space_id = true
    · have hqr : q = r := huniq q hq hkey
      subst hqr
      by_cases hvw : sqlValueNeq q.value p.value = true
      · simp [hkey, hro, hvw]
      · have hvweq : q.value = p.value := by
          obtain ⟨w, hw⟩ := Option.isSome_iff_exists.mp hrv
          obtain ⟨v, hv⟩ := Option.isSome_iff_exists.mp hpv
          rw [hw, hv] at hvw ⊢
          simp [sqlValueNeq] at hvw
          simp [hvw]
        have hcond : (samePropKey q q.uri q.node_path q.space_id &&
            q.read_only = false && sqlValueNeq q.value p.value) = false := by
          simp only [Bool.not_eq_true] at hvw
          simp [hvw]
        rw [hcond]
        simp only [Bool.false_eq_true, if_false, hkey, if_true]
        rw [← hvweq]
    · simp [hkey]
  · intro hro
    rw [update_properties_db_single_delete]
    unfold deleteProps
    refine List.filter_congr ?_
    intro q hq
    rw [hdelcond q]
    by_cases hkey : samePropKey q r.uri r.node_path r.space_id = true
    · have hqr : q = r := huniq q hq hkey
      subst hqr
      simp [hkey, hro]
    · simp [hkey]

/-- A non-read-only stored row whose value is SQL NULL. -/
def nullValueRow : PropRow := ⟨"ivo://ex/vospace#a", none, false, "a", 1⟩

/-- C5 counterexample: the claim's final clause ("non-read-only properties
are updated ... successfully") fails on a stored row whose value is NULL:
`properties.value != $2` is unknown under SQL three-valued logic, so the
upsert leaves the row unchanged even though it is not read-only and the
supplied value differs from the stored one. -/
theorem C5_null_value_not_updated :
    nullValueRow.read_only = false ∧
    nullValueRow.value ≠ (mkProperty "ivo://ex/vospace#a" (some "x") false).value ∧
    update_properties_db [mkProperty "ivo://ex/vospace#a" (some "x") false]
      "a" 1 [nullValueRow] = [nullValueRow] := by
  refine ⟨rfl, by decide, by decide⟩

/-- A concrete read-only stored row for the C5 witness. -/
def c5row : PropRow := ⟨"ivo://ex/vospace#b", some "v", true, "a", 1⟩

/-- A concrete supplied property for the C5 witness. -/
def c5prop : VProperty := mkProperty "ivo://ex/vospace#b" (some "w") false

/-- Witness for C5: the amended semantics applied at a concrete read-only
row and differing supplied value. -/
theorem C5_property_update_semantics_witness :
    (c5prop.isDelete = false → sqlValueNeq c5row.value c5prop.value = false →
      update_properties_db [c5prop] c5row.node_path c5row.space_id [c5row] = [c5row]) ∧
    (c5prop.isDelete = false → c5row.read_only = true →
      update_properties_db [c5prop] c5row.node_path c5row.space_id [c5row] = [c5row]) ∧
    (c5row.read_only = true →
      update_properties_db [mkDeleteProperty c5row.uri]
        c5row.node_path c5row.space_id [c5row] = [c5row]) ∧
    (c5prop.isDelete = false → c5row.read_only = false →
      c5row.value.isSome → c5prop.value.isSome →
      update_properties_db [c5prop] c5row.node_path c5row.space_id [c5row] =
        [c5row].map (fun q =>
          if samePropKey q c5row.uri c5row.node_path c5row.space_id then
            { q with value := c5prop.value }
          else q)) ∧
    (c5row.read_only = false →
      update_properties_db [mkDeleteProperty c5row.uri]
        c5row.node_path c5row.space_id [c5row] =
        [c5row].filter (fun q =>
          !samePropKey q c5row.uri c5row.node_path c5row.space_id)) :=
  C5_property_update_semantics [c5row] c5row (by decide)
    (by decide) c5prop (by decide)

/-- `io.DEFAULT_BUFFER_SIZE` (CPython's default binary I/O buffer size). -/
def DEFAULT_BUFFER_SIZE : Nat := 8192

/-- `ControlledReader` state (ngas/utils.py lines 51-72): the wrapped
inbound stream (embedded as the list of bytes it still buffers), the
declared `content_length`, and the running `bytes_read` counter. -/
structure ControlledReader where
  content : List Nat
  content_length : Nat
  bytes_read : Nat
  deriving Repr, DecidableEq

/-- `StreamReader.readexactly(n)`: exactly `n` bytes, or failure when the
stream holds fewer. -/
def readexactly (stream : List Nat) (n : Nat) : Option (List Nat × List Nat) :=
  if n ≤ stream.length then some (stream.take n, stream.drop n) else none

/-- Outcome of one `ControlledReader.__anext__` call. -/
inductive ReadStep where
  | stop
  | chunk (buf : List Nat) (r : ControlledReader)
  | fail
  deriving Repr, DecidableEq

/-- `ControlledReader.__anext__` (ngas/utils.py lines 64-72):
`bytes_to_read = min(io.DEFAULT_BUFFER_SIZE, content_length - bytes_read)`;
when it is not positive the iterator raises `StopAsyncIteration` (`stop`),
otherwise it reads exactly that many bytes and advances the counter.
(`bytes_read` never exceeds `content_length`, so the Python int
subtraction agrees with the Nat truncated subtraction and `<= 0` with
`= 0`.) -/
def ControlledReader.anext (r : ControlledReader) : ReadStep :=
  let bytes_to_read := min DEFAULT_BUFFER_SIZE (r.content_length - r.bytes_read)
  if bytes_to_read = 0 then
    ReadStep.stop
  else
    match readexactly r.content bytes_to_read with
    | none => ReadStep.fail
    | some (buf, rest) =>
      ReadStep.chunk buf ⟨rest, r.content_length, r.bytes_read + bytes_to_read⟩

/-- Iterating the reader to exhaustion (the `async for` loop): collect
every chunk `__anext__` yields until it signals `StopAsyncIteration`;
`none` when the underlying stream runs short. -/
def ControlledReader.drain (r : ControlledReader) :
    Option (List (List Nat) × ControlledReader) :=
  if min DEFAULT_BUFFER_SIZE (r.content_length - r.bytes_read) = 0 then
    some ([], r)
  else
    match readexactly r.content (min DEFAULT_BUFFER_SIZE (r.content_length - r.bytes_read)) with
    | none => none
    | some (buf, rest) =>
      match ControlledReader.drain
          ⟨rest, r.content_length,
           r.bytes_read + min DEFAULT_BUFFER_SIZE (r.content_length - r.bytes_read)⟩ with
      | none => none
      | some (chunks, final) => some (buf :: chunks, final)
termination_by r.content_length - r.bytes_read
decreasing_by
  have hmin : min DEFAULT_BUFFER_SIZE (r.content_length - r.bytes_read) ≤
      r.content_length - r.bytes_read := Nat.min_le_right _ _
  omega

/-- Draining a reader whose remaining budget is covered by the buffered
stream succeeds, yields exactly the remaining budget across chunks of at
most the default buffer size (the chunks being precisely the next bytes of
the stream, in order), and leaves the iterator signalling end-of-stream. -/
theorem ControlledReader.drain_spec (n : Nat) : ∀ r : ControlledReader,
    r.content_length - r.bytes_read = n →
    n ≤ r.content.length →
    ∃ chunks final, r.drain = some (chunks, final) ∧
      (chunks.map List.length).sum = n ∧
      (∀ c ∈ chunks, c.length ≤ DEFAULT_BUFFER_SIZE) ∧
      chunks.flatten = r.content.take n ∧
      final.anext = ReadStep.stop := by
  induction n using Nat.strong_induction_on with
  | _ n ih =>
    intro r hn hlen
    unfold ControlledReader.drain
    by_cases h0 : min DEFAULT_BUFFER_SIZE (r.content_length - r.bytes_read) = 0
    · have hn0 : n = 0 := by
        have : DEFAULT_BUFFER_SIZE ≠ 0 := by decide
        omega
      refine ⟨[], r, by simp [h0], by simp [hn0], by simp, by simp [hn0], ?_⟩
      unfold ControlledReader.anext
      simp [h0]
    · set btr := min DEFAULT_BUFFER_SIZE (r.content_length - r.bytes_read) with hbtr
      have hbtr_le_n : btr ≤ n := by omega
      have hbtr_pos : 0 < btr := Nat.pos_of_ne_zero h0
      have hre : readexactly r.content btr =
          some (r.content.take btr, r.content.drop btr) := by
        unfold readexactly
        rw [if_pos (le_trans hbtr_le_n hlen)]
      rw [if_neg h0, hre]
      have hrec := ih (n - btr) (by omega)
        ⟨r.content.drop btr, r.content_length, r.bytes_read + btr⟩
        (by simp; omega)
        (by simp [List.length_drop]; omega)
      obtain ⟨chunks, final, hdrain, hsum, hsizes, hjoin, hstop⟩ := hrec
      refine ⟨r.content.take btr :: chunks, final, ?_, ?_, ?_, ?_, hstop⟩
      · simp only [hdrain]
      · simp only [List.map_cons, List.sum_cons, hsum,
          List.length_take]
        have : btr ≤ r.content.length := le_trans hbtr_le_n hlen
        omega
      · intro c hc
        rcases List.mem_cons.mp hc with hc | hc
        · subst hc
          calc (r.content.take btr).length ≤ btr := by simp
            _ ≤ DEFAULT_BUFFER_SIZE := by rw [hbtr]; exact Nat.min_le_left _ _
        · exact hsizes c hc
      · simp only [List.flatten_cons, hjoin]
        rw [show n = btr + (n - btr) by omega, List.take_add, Nat.add_sub_cancel_left]

/-- C9: for every `content_length` N greater than zero and an underlying
source holding at least N bytes, iterating a fresh `ControlledReader` to
exhaustion succeeds and produces chunks of at most the default buffer size
whose total length is exactly N (the chunks are exactly the first N bytes,
leaving any surplus unread), after which the iterator signals
end-of-stream. -/
theorem C9_controlled_reader_exact_length (N : Nat) (src : List Nat)
    (_hN : 0 < N) (hsrc : N ≤ src.length) :
    ∃ chunks final,
      (ControlledReader.mk src N 0).drain = some (chunks, final) ∧
      (chunks.map List.length).sum = N ∧
      (∀ c ∈ chunks, c.length ≤ DEFAULT_BUFFER_SIZE) ∧
      chunks.flatten = src.take N ∧
      final.anext = ReadStep.stop :=
  ControlledReader.drain_spec N ⟨src, N, 0⟩ (by simp) hsrc

/-- Witness for C9: a length-3 body over a 5-byte source. -/
theorem C9_controlled_reader_exact_length_witness :
    0 < 3 ∧ 3 ≤ ([10, 20, 30, 40, 50] : List Nat).length ∧
    ∃ chunks final,
      (ControlledReader.mk [10, 20, 30, 40, 50] 3 0).drain = some (chunks, final) ∧
      (chunks.map List.length).sum = 3 ∧
      (∀ c ∈ chunks, c.length ≤ DEFAULT_BUFFER_SIZE) ∧
      chunks.flatten = ([10, 20, 30, 40, 50] : List Nat).take 3 ∧
      final.anext = ReadStep.stop :=
  ⟨by decide, by decide,
   C9_controlled_reader_exact_length 3 [10, 20, 30, 40, 50] (by decide) (by decide)⟩

/-- Characters legal in a URL scheme after the first (`urllib.parse`):
letters, digits, `+`, `-`, `.`. -/
def isSchemeChar (c : Char) : Bool :=
  c.isAlpha || c.isDigit || c = '+' || c = '-' || c = '.'

/-- ASCII lower-casing of one character (`str.lower` on scheme text). -/
def asciiLower (c : Char) : Char :=
  if 'A' ≤ c ∧ c ≤ 'Z' then Char.ofNat (c.toNat + 32) else c

/-- The result of `urllib.parse.urlparse` (the components this system
reads: scheme, netloc, path, query, fragment). -/
structure URLParts where
  scheme : String
  netloc : String
  path : String
  query : String
  fragment : String
  deriving Repr, DecidableEq

/-- Split a character list at the first occurrence of `sep`, or return it
unsplit. -/
def splitFirst (sep : Char) (cs : List Char) : List Char × Option (List Char) :=
  let pre := cs.takeWhile (fun c => c ≠ sep)
  let post := cs.dropWhile (fun c => c ≠ sep)
  match post with
  | [] => (pre, none)
  | _ :: rest => (pre, some rest)

/-- `urllib.parse.urlsplit`, restricted to the component grammar this
system uses: an optional `scheme:` prefix (taken only when the text before
the first `:` is a non-empty valid scheme starting with a letter, and
lower-cased), an optional `//netloc` (up to the next `/`, `?` or `#`),
then the fragment after the first `#`, the query after the first `?`, and
the path as the rest. -/
def urlparse (s : String) : URLParts :=
  let cs := s.data
  let (scheme, rest) :=
    match splitFirst ':' cs with
    | (pre, some post) =>
      if pre ≠ [] ∧ (pre.headD ' ').isAlpha ∧ pre.all isSchemeChar then
        (String.mk (pre.map asciiLower), post)
      else ("", cs)
    | (_, none) => ("", cs)
  let (netloc, rest) :=
    match rest with
    | '/' :: '/' :: tail =>
      (String.mk (tail.takeWhile (fun c => c ≠ '/' ∧ c ≠ '?' ∧ c ≠ '#')),
       tail.dropWhile (fun c => c ≠ '/' ∧ c ≠ '?' ∧ c ≠ '#'))
    | _ => ("", rest)
  let (rest, fragment) :=
    match splitFirst '#' rest with
    | (pre, some post) => (pre, String.mk post)
    | (pre, none) => (pre, "")
  let (path, query) :=
    match splitFirst '?' rest with
    | (pre, some post) => (String.mk pre, String.mk post)
    | (pre, none) => (String.mk pre, "")
  ⟨scheme, netloc, path, query, fragment⟩

/-- `posixpath.normpath`: collapse empty and `.` segments, resolve `..`
against preceding segments, preserve up to two leading slashes. -/
def normpath (p : String) : String :=
  if p = "" then "."
  else
    let cs := p.data
    let initialSlashes : Nat :=
      if cs.headD ' ' = '/' then
        if cs.take 2 = ['/', '/'] ∧ cs.take 3 ≠ ['/', '/', '/'] then 2 else 1
      else 0
    let comps := pySplit p '/'
    let newComps := comps.foldl (fun acc comp =>
      if comp = "" ∨ comp = "." then acc
      else if comp ≠ ".." ∨ (initialSlashes = 0 ∧ acc = []) ∨
              (acc ≠ [] ∧ acc.getLast? = some "..") then acc ++ [comp]
      else if acc ≠ [] then acc.dropLast
      else acc) []
    let joined := String.mk (List.replicate initialSlashes '/') ++
      String.intercalate "/" newComps
    if joined = "" then "." else joined

/-- `s.lstrip('/')`. -/
def lstripSlash (s : String) : String :=
  String.mk (s.data.dropWhile (fun c => c = '/'))

/-- `s.rstrip('/')`. -/
def rstripSlash (s : String) : String :=
  String.mk ((s.data.reverse.dropWhile (fun c => c = '/')).reverse)

/-- `Node.uri_to_path` (model.py lines 504-509): parse the URI, require a
non-empty path component, normalize it and strip leading and trailing
slashes; `InvalidURI` when the path is empty. -/
def uri_to_path (uri : String) : Except VErr String :=
  let uri_parsed := urlparse uri
  if uri_parsed.path = "" then
    throw (VErr.invalidURI "URI does not exist.")
  else
    pure (rstripSlash (lstripSlash (normpath uri_parsed.path)))

/-- `s.startswith(pre)` over the character lists. -/
def strStartsWith (s pre : String) : Bool :=
  s.data.take pre.data.length = pre.data

/-- `validate_property_uri` (model.py lines 36-48): the scheme must be
exactly `ivo`, the path non-empty and `/vospace`-prefixed, the fragment
non-empty; each violation raises `InvalidArgument` naming the rule.
(The Python `if not uri` also catches `None`; a `None` uri is embedded at
the call sites that can produce one.) -/
def validate_property_uri (uri : String) : Except VErr URLParts :=
  if uri = "" then throw (VErr.invalidArgument "uri empty")
  else
    let parsed := urlparse uri
    if parsed.scheme ≠ "ivo" then
      throw (VErr.invalidArgument "uri does not start with ivo")
    else if parsed.path = "" then
      throw (VErr.invalidArgument "path empty")
    else if ¬ strStartsWith parsed.path "/vospace" then
      throw (VErr.invalidArgument "path does not start with /vospace")
    else if parsed.fragment = "" then
      throw (VErr.invalidArgument "fragment empty")
    else
      pure parsed

/-- `os.path.basename`: the text after the final slash. -/
def pathBasename (p : String) : String :=
  let idx := p.data.reverse.findIdx (fun c => c = '/')
  if idx = p.data.length then p
  else String.mk (p.data.drop (p.data.length - idx))

/-- `os.path.dirname`: the text before the final slash, with trailing
slashes stripped unless the head is all slashes. -/
def pathDirname (p : String) : String :=
  let idx := p.data.reverse.findIdx (fun c => c = '/')
  if idx = p.data.length then ""
  else
    let head := p.data.take (p.data.length - idx)
    if head.all (fun c => c = '/') then String.mk head
    else String.mk ((head.reverse.dropWhile (fun c => c = '/')).reverse)

/-- An XML element tree (the lxml `Element` values this system builds and
walks): Clark-notation tag, attributes in document order, optional text,
children in document order. -/
inductive XMLElem where
  | mk (tag : String) (attrs : List (String × String)) (text : Option String)
       (children : List XMLElem)

/-- Element tag. -/
def XMLElem.tag : XMLElem → String
  | .mk t _ _ _ => t

/-- Element attributes. -/
def XMLElem.attrs : XMLElem → List (String × String)
  | .mk _ a _ _ => a

/-- Element text. -/
def XMLElem.text : XMLElem → Option String
  | .mk _ _ t _ => t

/-- Element children. -/
def XMLElem.children : XMLElem → List XMLElem
  | .mk _ _ _ c => c

/-- `element.attrib.get(key, None)`: first binding of `key`. -/
def XMLElem.getAttr (e : XMLElem) (key : String) : Option String :=
  (e.attrs.find? (fun kv => kv.1 = key)).map (fun kv => kv.2)

/-- The VOSpace namespace in Clark notation. -/
def vosTag (localName : String) : String :=
  "{http://www.ivoa.net/xml/VOSpace/v2.1}" ++ localName

/-- The XMLSchema-instance namespace in Clark notation. -/
def xsiTag (localName : String) : String :=
  "{http://www.w3.org/2001/XMLSchema-instance}" ++ localName

/-- The UWS namespace in Clark notation. -/
def uwsTag (localName : String) : String :=
  "{http://www.ivoa.net/xml/UWS/v1.0}" ++ localName

/-- The closed set of node variants (the six `vos:*Node` classes). -/
inductive NodeKind where
  | node
  | dataNode
  | unstructuredDataNode
  | structuredDataNode
  | containerNode
  | linkNode
  deriving Repr, DecidableEq

/-- `node_type_text`: the `vos:*` literal tag of each variant. -/
def nodeTypeText : NodeKind → String
  | .node => "vos:Node"
  | .dataNode => "vos:DataNode"
  | .unstructuredDataNode => "vos:UnstructuredDataNode"
  | .structuredDataNode => "vos:StructuredDataNode"
  | .containerNode => "vos:ContainerNode"
  | .linkNode => "vos:LinkNode"

/-- An in-memory node (the union of the fields of the six variants:
`accepts`/`provides`/`busy` live on `DataNode` and below, `target` on
`LinkNode`, `children` on `ContainerNode`; a variant's unused fields stay
at their defaults). View lists are kept as their uri strings (a `View` is
a validated uri and compares by uri). -/
inductive VNode where
  | mk (kind : NodeKind) (path : String) (properties : List VProperty)
       (accepts : List String) (provides : List String) (busy : Bool)
       (target : Option String) (children : List VNode)

/-- Node variant tag. -/
def VNode.kind : VNode → NodeKind
  | .mk k _ _ _ _ _ _ _ => k

/-- Node path (normalized at construction by `uri_to_path`). -/
def VNode.path : VNode → String
  | .mk _ p _ _ _ _ _ _ => p

/-- Node properties. -/
def VNode.properties : VNode → List VProperty
  | .mk _ _ ps _ _ _ _ _ => ps

/-- Accepted views (uris). -/
def VNode.accepts : VNode → List String
  | .mk _ _ _ a _ _ _ _ => a

/-- Provided views (uris). -/
def VNode.provides : VNode → List String
  | .mk _ _ _ _ p _ _ _ => p

/-- Busy flag (`DataNode` and below). -/
def VNode.busy : VNode → Bool
  | .mk _ _ _ _ _ b _ _ => b

/-- Link target (`LinkNode`). -/
def VNode.target : VNode → Option String
  | .mk _ _ _ _ _ _ t _ => t

/-- Container children, in insertion order (the `OrderedDict` values). -/
def VNode.children : VNode → List VNode
  | .mk _ _ _ _ _ _ _ c => c

/-- `node.name`: the final path segment (`os.path.basename(path)`). -/
def VNode.name (n : VNode) : String := pathBasename n.path

/-- `node.dirname`: the parent path (`os.path.dirname(path)`). -/
def VNode.dirname (n : VNode) : String := pathDirname n.path

/-- `Node(path)` (a plain metadata-only node): normalize the given URI to
a path; the other fields default. -/
def mkPlainNode (uri : String) : Except VErr VNode := do
  let path ← uri_to_path uri
  pure (VNode.mk NodeKind.node path [] [] [] false none [])

/-- The protocol variant tags: four specialized well-known classes
(`HTTPPut`, `HTTPGet`, `HTTPSPut`, `HTTPSGet`) and the generic `Protocol`. -/
inductive ProtocolKind where
  | httpPut
  | httpGet
  | httpsPut
  | httpsGet
  | generic
  deriving Repr, DecidableEq

/-- A `Protocol` value: variant tag, uri, optional endpoint url, optional
security-method uri (`Endpoint` and `SecurityMethod` are validated non-None
wrappers around their url strings). -/
structure ProtocolM where
  kind : ProtocolKind
  uri : String
  endpoint : Option String
  security_method : Option String
  deriving Repr, DecidableEq

/-- A `ProtocolTransfer` (`PushToSpace`/`PullFromSpace`): the fields
`tomap` reads.  `str(self.target)` is the target node's path and
`str(self.view)` the view's uri; `isPullFromSpace`/`redirect` drive the
`isinstance(self, PullFromSpace)` branch. -/
structure ProtocolTransferData where
  target : String
  direction : String
  protocols : List ProtocolM
  view : Option String
  isPullFromSpace : Bool
  redirect : Bool
  deriving Repr, DecidableEq

/-- `ProtocolTransfer.tomap` (model.py lines 1072-1081): build the flat
negotiation map (insertion-ordered, as a Python dict);
`str(self.protocols[0])` indexes the first candidate protocol, raising
`IndexError` when the list is empty. -/
def ProtocolTransfer_tomap (t : ProtocolTransferData) :
    Except VErr (List (String × String)) :=
  match t.protocols with
  | [] => throw VErr.indexError
  | p :: _ =>
    let params := [("TARGET", t.target), ("DIRECTION", t.direction),
                   ("PROTOCOL", p.uri)]
    let params := match t.view with
      | some v => params ++ [("VIEW", v)]
      | none => params
    let params := if t.isPullFromSpace && t.redirect then
        params ++ [("REQUEST", "redirect")]
      else params
    pure params

/-- C10: `tomap` unconditionally reads the first candidate protocol: on an
empty protocols list it fails with the out-of-range access (`IndexError`),
and with at least one protocol it succeeds, the `PROTOCOL` entry carrying
the first protocol's uri — the operation is total exactly under the
precondition that a candidate protocol is present. -/
theorem C10_tomap_requires_first_protocol (t : ProtocolTransferData) :
    (t.protocols = [] → ProtocolTransfer_tomap t = Except.error VErr.indexError) ∧
    (∀ p ps, t.protocols = p :: ps →
      ∃ m, ProtocolTransfer_tomap t = Except.ok m ∧
        ("PROTOCOL", p.uri) ∈ m ∧
        m.take 3 = [("TARGET", t.target), ("DIRECTION", t.direction),
                    ("PROTOCOL", p.uri)]) := by
  constructor
  · intro h
    unfold ProtocolTransfer_tomap
    rw [h]
    rfl
  · intro p ps h
    unfold ProtocolTransfer_tomap
    rw [h]
    cases hv : t.view with
    | none =>
      cases hr : (t.isPullFromSpace && t.redirect) with
      | false => exact ⟨_, rfl, by simp, rfl⟩
      | true => exact ⟨_, rfl, by simp, rfl⟩
    | some v =>
      cases hr : (t.isPullFromSpace && t.redirect) with
      | false => exact ⟨_, rfl, by simp, rfl⟩
      | true => exact ⟨_, rfl, by simp, rfl⟩

/-- Witness for C10: a pull transfer with no candidate protocols fails
with `IndexError`; adding one protocol makes it total. -/
theorem C10_tomap_requires_first_protocol_witness :
    (([] : List ProtocolM) = [] →
      ProtocolTransfer_tomap ⟨"a/b", "pullFromVoSpace", [], none, true, true⟩ =
        Except.error VErr.indexError) ∧
    (∀ p ps, ([] : List ProtocolM) = p :: ps →
      ∃ m, ProtocolTransfer_tomap ⟨"a/b", "pullFromVoSpace", [], none, true, true⟩ =
          Except.ok m ∧
        ("PROTOCOL", p.uri) ∈ m ∧
        m.take 3 = [("TARGET", "a/b"), ("DIRECTION", "pullFromVoSpace"),
                    ("PROTOCOL", p.uri)]) :=
  C10_tomap_requires_first_protocol ⟨"a/b", "pullFromVoSpace", [], none, true, true⟩

/-- The transfer variant set (`PushToSpace`, `PullFromSpace`, `Copy`,
`Move`), as `create_transfer` constructs them: protocol transfers start
with empty protocols/view/params, `PullFromSpace` with `redirect=True`;
node transfers carry the second node and their fixed `keep_bytes`. -/
inductive TransferM where
  | pushToSpace (target : VNode)
  | pullFromSpace (target : VNode) (redirect : Bool)
  | copy (target : VNode) (direction : VNode)
  | move (target : VNode) (direction : VNode)

/-- `Transfer.create_transfer` (model.py lines 940-953): dispatch on the
direction literal; `pushFromVoSpace` and `pullToVoSpace` raise
`NotImplementedError`; any other direction is a second node path, `Copy`
when `keep_bytes` is truthy, `Move` otherwise (`keep_bytes` is `True`,
`False`, or the absent/falsy `[]`, embedded as `Option Bool`). -/
def Transfer_create_transfer (target direction : String)
    (keep_bytes : Option Bool) : Except VErr TransferM :=
  if direction = "pushToVoSpace" then do
    let n ← mkPlainNode target
    pure (TransferM.pushToSpace n)
  else if direction = "pullFromVoSpace" then do
    let n ← mkPlainNode target
    pure (TransferM.pullFromSpace n true)
  else if direction = "pushFromVoSpace" then
    throw NotImplementedErr
  else if direction = "pullToVoSpace" then
    throw NotImplementedErr
  else if keep_bytes.getD false then do
    let t ← mkPlainNode target
    let d ← mkPlainNode direction
    pure (TransferM.copy t d)
  else do
    let t ← mkPlainNode target
    let d ← mkPlainNode direction
    pure (TransferM.move t d)

/-- C7: `create_transfer` maps `pushToVoSpace` to `PushToSpace` and
`pullFromVoSpace` to `PullFromSpace`; any other direction yields `Copy`
when keep-bytes is true and `Move` when false or absent; and for every
target and keep-bytes value the directions `pushFromVoSpace` and
`pullToVoSpace` fail with the generic `VOSpaceError` kind. -/
theorem C7_create_transfer_dispatch (target direction : String)
    (keep_bytes : Option Bool) (tnode dnode : VNode)
    (htarget : mkPlainNode target = Except.ok tnode)
    (hdir : mkPlainNode direction = Except.ok dnode)
    (hother : direction ≠ "pushToVoSpace" ∧ direction ≠ "pullFromVoSpace" ∧
              direction ≠ "pushFromVoSpace" ∧ direction ≠ "pullToVoSpace") :
    Transfer_create_transfer target "pushToVoSpace" keep_bytes =
      Except.ok (TransferM.pushToSpace tnode) ∧
    Transfer_create_transfer target "pullFromVoSpace" keep_bytes =
      Except.ok (TransferM.pullFromSpace tnode true) ∧
    (∀ t kb, ∃ code msg, Transfer_create_transfer t "pushFromVoSpace" kb =
      Except.error (VErr.vospaceError code msg)) ∧
    (∀ t kb, ∃ code msg, Transfer_create_transfer t "pullToVoSpace" kb =
      Except.error (VErr.vospaceError code msg)) ∧
    (keep_bytes = some true →
      Transfer_create_transfer target direction keep_bytes =
        Except.ok (TransferM.copy tnode dnode)) ∧
    (keep_bytes = some false ∨ keep_bytes = none →
      Transfer_create_transfer target direction keep_bytes =
        Except.ok (TransferM.move tnode dnode)) := by
  obtain ⟨h1, h2, h3, h4⟩ := hother
  refine ⟨?_, ?_, ?_, ?_, ?_, ?_⟩
  · unfold Transfer_create_transfer
    simp [htarget]
  · unfold Transfer_create_transfer
    simp [htarget]
  · intro t kb
    refine ⟨501, "Not Implemented.", ?_⟩
    unfold Transfer_create_transfer
    simp only [NotImplementedErr]
    rfl
  · intro t kb
    refine ⟨501, "Not Implemented.", ?_⟩
    unfold Transfer_create_transfer
    simp only [NotImplementedErr]
    rfl
  · intro hkb
    subst hkb
    unfold Transfer_create_transfer
    simp [h1, h2, h3, h4, htarget, hdir]
    try rfl
  · intro hkb
    unfold Transfer_create_transfer
    rcases hkb with hkb | hkb <;>
      (subst hkb; simp [h1, h2, h3, h4, htarget, hdir]; try rfl)

/-- Witness for C7: target `vos://icrar.org!vospace/a`, other-direction
`/other/path`, keep-bytes true. -/
theorem C7_create_transfer_dispatch_witness :
    Transfer_create_transfer "vos://icrar.org!vospace/a" "pushToVoSpace" (some true) =
      Except.ok (TransferM.pushToSpace
        (VNode.mk NodeKind.node "a" [] [] [] false none [])) ∧
    Transfer_create_transfer "vos://icrar.org!vospace/a" "pullFromVoSpace" (some true) =
      Except.ok (TransferM.pullFromSpace
        (VNode.mk NodeKind.node "a" [] [] [] false none []) true) ∧
    (∀ t kb, ∃ code msg, Transfer_create_transfer t "pushFromVoSpace" kb =
      Except.error (VErr.vospaceError code msg)) ∧
    (∀ t kb, ∃ code msg, Transfer_create_transfer t "pullToVoSpace" kb =
      Except.error (VErr.vospaceError code msg)) ∧
    (some true = some true →
      Transfer_create_transfer "vos://icrar.org!vospace/a" "/other/path" (some true) =
        Except.ok (TransferM.copy
          (VNode.mk NodeKind.node "a" [] [] [] false none [])
          (VNode.mk NodeKind.node "other/path" [] [] [] false none []))) ∧
    (some true = some false ∨ (some true : Option Bool) = none →
      Transfer_create_transfer "vos://icrar.org!vospace/a" "/other/path" (some true) =
        Except.ok (TransferM.move
          (VNode.mk NodeKind.node "a" [] [] [] false none [])
          (VNode.mk NodeKind.node "other/path" [] [] [] false none []))) :=
  C7_create_transfer_dispatch "vos://icrar.org!vospace/a" "/other/path" (some true)
    (VNode.mk NodeKind.node "a" [] [] [] false none [])
    (VNode.mk NodeKind.node "other/path" [] [] [] false none [])
    rfl rfl (by refine ⟨by decide, by decide, by decide, by decide⟩)

/-- Children of an element with a given tag (the relative xpath steps
`vos:securityMethod`, `vos:endpoint`, ...). -/
def XMLElem.childrenWithTag (e : XMLElem) (t : String) : List XMLElem :=
  e.children.filter (fun c => c.tag = t)

/-- The four fixed well-known protocol URIs. -/
def wellKnownProtocolUris : List String :=
  ["ivo://ivoa.net/vospace/core#httpput",
   "ivo://ivoa.net/vospace/core#httpget",
   "ivo://ivoa.net/vospace/core#httpsput",
   "ivo://ivoa.net/vospace/core#httpsget"]

/-- The specialized variant for each well-known protocol URI. -/
def wellKnownProtocolKind (u : String) : ProtocolKind :=
  if u = "ivo://ivoa.net/vospace/core#httpput" then ProtocolKind.httpPut
  else if u = "ivo://ivoa.net/vospace/core#httpget" then ProtocolKind.httpGet
  else if u = "ivo://ivoa.net/vospace/core#httpsput" then ProtocolKind.httpsPut
  else if u = "ivo://ivoa.net/vospace/core#httpsget" then ProtocolKind.httpsGet
  else ProtocolKind.generic

/-- One `vos:protocol` element of `ProtocolTransfer.build_node` (model.py
lines 1110-1138): read the `uri` attribute, the optional
`vos:securityMethod` child (its `uri` attribute is required), the optional
`vos:endpoint` child (an `Endpoint` may not wrap a `None` text), then
dispatch on the uri.  The four well-known uris build their specialized
variants with the endpoint and security method attached.  The final
branch is the source's `Protocol(endpoint, security_obj)` (line 1137),
which passes the endpoint positionally as the `uri` parameter: the uri
setter then runs `validate_property_uri` on `None` (raising
`InvalidArgument('uri empty')`) or on an `Endpoint` object (raising
`TypeError` inside `urlparse`), so no generic protocol is ever built. -/
def parseProtocolElem (protocol : XMLElem) : Except VErr ProtocolM := do
  let protocol_uri := protocol.getAttr "uri"
  let security_obj : Option String ←
    match (protocol.childrenWithTag (vosTag "securityMethod")).head? with
    | none => pure none
    | some se =>
      match se.getAttr "uri" with
      | none => throw (VErr.invalidXML "vos:securityMethod URI does not exist.")
      | some su => pure (some su)
  let endpoint : Option String ←
    match (protocol.childrenWithTag (vosTag "endpoint")).head? with
    | none => pure none
    | some ee =>
      match ee.text with
      | none => throw (VErr.invalidArgument "Endpoint URI is None.")
      | some t => pure (some t)
  if protocol_uri = some "ivo://ivoa.net/vospace/core#httpput" then
    pure ⟨ProtocolKind.httpPut, "ivo://ivoa.net/vospace/core#httpput",
          endpoint, security_obj⟩
  else if protocol_uri = some "ivo://ivoa.net/vospace/core#httpget" then
    pure ⟨ProtocolKind.httpGet, "ivo://ivoa.net/vospace/core#httpget",
          endpoint, security_obj⟩
  else if protocol_uri = some "ivo://ivoa.net/vospace/core#httpsput" then
    pure ⟨ProtocolKind.httpsPut, "ivo://ivoa.net/vospace/core#httpsput",
          endpoint, security_obj⟩
  else if protocol_uri = some "ivo://ivoa.net/vospace/core#httpsget" then
    pure ⟨ProtocolKind.httpsGet, "ivo://ivoa.net/vospace/core#httpsget",
          endpoint, security_obj⟩
  else
    match endpoint with
    | none => throw (VErr.invalidArgument "uri empty")
    | some _ => throw VErr.typeError

/-- The protocol portion of parsing a `vos:transfer` document: every
`vos:protocol` child of the transfer root, in document order, the first
failure propagating (the Python `for` loop raises at the first bad
element). -/
def transfer_build_protocols (root : XMLElem) : Except VErr (List ProtocolM) :=
  if root.tag = vosTag "transfer" then
    (root.childrenWithTag (vosTag "protocol")).mapM parseProtocolElem
  else
    pure []

/-- A `vos:protocol` element with a uri attribute, an optional
`vos:endpoint` child (with text) and an optional `vos:securityMethod`
child (with uri attribute). -/
def mkProtocolElem (uri : Option String) (endpoint sec : Option String) : XMLElem :=
  XMLElem.mk (vosTag "protocol")
    (match uri with | none => [] | some u => [("uri", u)])
    none
    ((match endpoint with
      | none => []
      | some e => [XMLElem.mk (vosTag "endpoint") [] (some e) []]) ++
     (match sec with
      | none => []
      | some su => [XMLElem.mk (vosTag "securityMethod") [("uri", su)] none []]))

/-- C8 (code bug): a `vos:protocol` element with a well-known uri parses
to the matching specialized variant with its endpoint and security method
attached; but an element with any other uri never yields a generic
`Protocol` carrying that uri — the `Protocol(endpoint, security_obj)` call
at model.py line 1137 passes the endpoint positionally as the uri, so the
parse raises `InvalidArgument('uri empty')` when no endpoint child is
present and `TypeError` when one is. -/
theorem C8_generic_protocol_parse_broken (u : String) (ep sec : Option String) :
    (u ∈ wellKnownProtocolUris →
      parseProtocolElem (mkProtocolElem (some u) ep sec) =
        Except.ok ⟨wellKnownProtocolKind u, u, ep, sec⟩) ∧
    (u ∉ wellKnownProtocolUris →
      (ep = none → parseProtocolElem (mkProtocolElem (some u) ep sec) =
          Except.error (VErr.invalidArgument "uri empty")) ∧
      (∀ e, ep = some e → parseProtocolElem (mkProtocolElem (some u) ep sec) =
          Except.error VErr.typeError)) := by
  constructor
  · intro hmem
    simp only [wellKnownProtocolUris, List.mem_cons, List.not_mem_nil,
      or_false] at hmem
    unfold parseProtocolElem mkProtocolElem wellKnownProtocolKind
    rcases hmem with h | h | h | h
    all_goals subst h
    all_goals cases ep <;> cases sec <;>
      (simp [XMLElem.childrenWithTag, XMLElem.children, XMLElem.getAttr,
        XMLElem.attrs, XMLElem.tag, XMLElem.text, vosTag]
       try rfl)
  · intro hmem
    have h1 : u ≠ "ivo://ivoa.net/vospace/core#httpput" := by
      intro h; exact hmem (by rw [h]; decide)
    have h2 : u ≠ "ivo://ivoa.net/vospace/core#httpget" := by
      intro h; exact hmem (by rw [h]; decide)
    have h3 : u ≠ "ivo://ivoa.net/vospace/core#httpsput" := by
      intro h; exact hmem (by rw [h]; decide)
    have h4 : u ≠ "ivo://ivoa.net/vospace/core#httpsget" := by
      intro h; exact hmem (by rw [h]; decide)
    constructor
    · intro hep
      subst hep
      unfold parseProtocolElem mkProtocolElem
      cases sec <;>
        (simp [XMLElem.childrenWithTag, XMLElem.children, XMLElem.getAttr,
          XMLElem.attrs, XMLElem.tag, XMLElem.text, vosTag, h1, h2, h3, h4]
         try rfl)
    · intro e hep
      subst hep
      unfold parseProtocolElem mkProtocolElem
      cases sec <;>
        (simp [XMLElem.childrenWithTag, XMLElem.children, XMLElem.getAttr,
          XMLElem.attrs, XMLElem.tag, XMLElem.text, vosTag, h1, h2, h3, h4]
         try rfl)

/-- Witness for C8: the element `<vos:protocol uri="ivo://mydomain/vospace#custom"/>`
(no endpoint) raises `InvalidArgument('uri empty')` instead of yielding a
generic `Protocol`, and `<vos:protocol uri=".../core#httpget"/>` parses to
`HTTPGet`. -/
theorem C8_generic_protocol_parse_broken_witness :
    parseProtocolElem (mkProtocolElem (some "ivo://mydomain/vospace#custom") none none) =
      Except.error (VErr.invalidArgument "uri empty") ∧
    parseProtocolElem (mkProtocolElem (some "ivo://ivoa.net/vospace/core#httpget")
        none (some "ivo://ivoa.net/vospace/core#cookie")) =
      Except.ok ⟨ProtocolKind.httpGet, "ivo://ivoa.net/vospace/core#httpget",
                 none, some "ivo://ivoa.net/vospace/core#cookie"⟩ :=
  ⟨((C8_generic_protocol_parse_broken "ivo://mydomain/vospace#custom" none none).2
      (by decide)).1 rfl,
   by
    have h := (C8_generic_protocol_parse_broken "ivo://ivoa.net/vospace/core#httpget"
      none (some "ivo://ivoa.net/vospace/core#cookie")).1 (by decide)
    rw [h]
    rfl⟩

/-- `UWSPhaseLookup`: textual renderings of the ten phases (model.py
lines 1173-1182); jobs carry a phase in 0..9. -/
def UWSPhaseLookup : Fin 10 → String
  | 0 => "PENDING"
  | 1 => "QUEUED"
  | 2 => "EXECUTING"
  | 3 => "COMPLETED"
  | 4 => "ERROR"
  | 5 => "ABORTED"
  | 6 => "UNKNOWN"
  | 7 => "HELD"
  | 8 => "SUSPENDED"
  | 9 => "ARCHIVED"

/-- `UWSResult`: an id plus an arbitrary string-keyed attribute map. -/
structure UWSResultM where
  id : String
  attrs : List (String × String)
  deriving Repr, DecidableEq

/-- `UWSResult.toxml(root)` (model.py lines 1190-1194): a `uws:result`
element carrying the id and the attribute map. -/
def UWSResult_toxml (r : UWSResultM) : XMLElem :=
  XMLElem.mk (uwsTag "result") (("id", r.id) :: r.attrs) none []

/-- A `UWSJob`: id, phase, destruction timestamp, optional embedded
job-info document (the transfer's own XML), results (the setter leaves
`None` for a falsy value, so the empty list stands for both `None` and
`[]` — their truthiness agrees), optional error message. -/
structure UWSJobM where
  job_id : String
  phase : Fin 10
  destruction : String
  job_info : Option XMLElem
  results : List UWSResultM
  error : Option String

/-- `UWSJob.toxml` (model.py lines 1249-1272).  The `results` section
mirrors source lines 1265-1268 exactly: the loop `for result in results:`
iterates the freshly created `uws:results` *element* (which has no
children), not `self.results`, so the element is emitted with no
`uws:result` children. -/
def UWSJob_toxml (j : UWSJobM) : XMLElem :=
  let base : List XMLElem :=
    [XMLElem.mk (uwsTag "jobId") [] (some j.job_id) [],
     XMLElem.mk (uwsTag "ownerId") [(xsiTag "nil", "true")] none [],
     XMLElem.mk (uwsTag "phase") [] (some (UWSPhaseLookup j.phase)) [],
     XMLElem.mk (uwsTag "quote") [] none [],
     XMLElem.mk (uwsTag "startTime") [(xsiTag "nil", "true")] none [],
     XMLElem.mk (uwsTag "endTime") [(xsiTag "nil", "true")] none [],
     XMLElem.mk (uwsTag "executionDuration") [] (some "0") [],
     XMLElem.mk (uwsTag "destruction") [] (some j.destruction) []]
  let withInfo := base ++
    (match j.job_info with
     | none => []
     | some t => [XMLElem.mk (uwsTag "jobInfo") [] none [t]])
  let emptyResultsElem := XMLElem.mk (uwsTag "results") [] none []
  let withResults := withInfo ++
    (if j.results.isEmpty then []
     else [XMLElem.mk (uwsTag "results") [] none
            (emptyResultsElem.children.map (fun _ => emptyResultsElem))])
  let withError := withResults ++
    (match j.error with
     | none => []
     | some e => [XMLElem.mk (uwsTag "errorSummary") [] none
                   [XMLElem.mk (uwsTag "message") [] (some e) []]])
  XMLElem.mk (uwsTag "job") [] none withError

/-- `UWSJob.results_tostring` (model.py lines 1274-1280), the sibling
serializer that iterates `self.results` correctly: `None` for a falsy
results list, otherwise a `uws:results` element with one `uws:result`
child per result. -/
def UWSJob_results_tostring (j : UWSJobM) : Option XMLElem :=
  if j.results.isEmpty then none
  else some (XMLElem.mk (uwsTag "results") [] none (j.results.map UWSResult_toxml))

/-- C4 (code bug): for every job with a non-empty results list, the
document produced by `UWSJob.toxml` contains a `uws:results` element with
NO `uws:result` children (the loop iterates the freshly created element
instead of `self.results`), while the sibling `results_tostring`
serializer emits one `uws:result` child per result carrying its id and
attribute map. -/
theorem C4_toxml_results_always_empty (j : UWSJobM) (hres : j.results ≠ []) :
    ((UWSJob_toxml j).children.find? (fun e => e.tag = uwsTag "results")) =
      some (XMLElem.mk (uwsTag "results") [] none []) ∧
    UWSJob_results_tostring j =
      some (XMLElem.mk (uwsTag "results") [] none
        (j.results.map UWSResult_toxml)) := by
  have hne : j.results.isEmpty = false := by
    cases h : j.results with
    | nil => exact absurd h hres
    | cons a l => rfl
  constructor
  · unfold UWSJob_toxml
    simp only [hne, XMLElem.children, if_false, Bool.false_eq_true,
      List.map, List.append_nil]
    cases hinfo : j.job_info with
    | none =>
      cases herr : j.error with
      | none => simp [List.find?, XMLElem.tag, uwsTag]
      | some e => simp [List.find?, XMLElem.tag, uwsTag]
    | some t =>
      cases herr : j.error with
      | none => simp [List.find?, XMLElem.tag, uwsTag]
      | some e => simp [List.find?, XMLElem.tag, uwsTag]
  · unfold UWSJob_results_tostring
    rw [hne]
    rfl

/-- Witness for C4: a job with one result whose link attribute is lost by
`toxml` but kept by `results_tostring`. -/
theorem C4_toxml_results_always_empty_witness :
    (((UWSJob_toxml ⟨"j1", 3, "2018-01-01", none,
        [⟨"r1", [("xlink:href", "http://x/y")]⟩], none⟩).children.find?
          (fun e => e.tag = uwsTag "results")) =
      some (XMLElem.mk (uwsTag "results") [] none [])) ∧
    UWSJob_results_tostring ⟨"j1", 3, "2018-01-01", none,
        [⟨"r1", [("xlink:href", "http://x/y")]⟩], none⟩ =
      some (XMLElem.mk (uwsTag "results") [] none
        (List.map UWSResult_toxml [⟨"r1", [("xlink:href", "http://x/y")]⟩])) :=
  C4_toxml_results_always_empty
    ⟨"j1", 3, "2018-01-01", none, [⟨"r1", [("xlink:href", "http://x/y")]⟩], none⟩
    (by simp)

/-- `str(b).lower()` for the stored read-only value (`True`/`False`/`None`). -/
def pyBoolStr : Option Bool → String
  | some true => "true"
  | some false => "false"
  | none => "none"

/-- One serialized `vos:property` element (Node.toxml, model.py lines
616-622): `uri` and `readOnly` attributes, the value as text, and
`xsi:nil='true'` for a `DeleteProperty`. -/
def emitProperty (p : VProperty) : XMLElem :=
  XMLElem.mk (vosTag "property")
    ([("uri", p.uri), ("readOnly", pyBoolStr p.read_only)] ++
     (if p.isDelete then [(xsiTag "nil", "true")] else []))
    p.value []

/-- Parsing one `vos:property` element (Node.build_node, model.py lines
520-538): the `uri` attribute is required; an `xsi:nil` attribute marks a
delete sentinel; `readOnly` parses to `True` exactly on the text `true`
(a falsy attribute — absent or empty — stays un-set, embedded `none`).
`Property`/`DeleteProperty` construction validates the uri. -/
def parsePropertyElem (e : XMLElem) : Except VErr VProperty := do
  match e.getAttr "uri" with
  | none => throw (VErr.invalidXML "vos:property URI does not exist.")
  | some prop_uri =>
    let delete_prop := e.getAttr (xsiTag "nil")
    let prop_ro : Option Bool :=
      match e.getAttr "readOnly" with
      | none => none
      | some s => if s = "" then none else some (s = "true")
    let prop_text := e.text
    match delete_prop with
    | none => do
      let _ ← validate_property_uri prop_uri
      pure (VProperty.mk prop_uri prop_text prop_ro false)
    | some _ => do
      let _ ← validate_property_uri prop_uri
      pure (VProperty.mk prop_uri none (some false) true)

/-- A serialized `vos:view` element (uri attribute only). -/
def mkViewElem (uri : String) : XMLElem :=
  XMLElem.mk (vosTag "view") [("uri", uri)] none []

/-- Parsing one `vos:view` element: the uri attribute is required
(`InvalidXML` with the accepts/provides message otherwise). -/
def parseViewElem (errmsg : String) (e : XMLElem) : Except VErr String :=
  match e.getAttr "uri" with
  | none => throw (VErr.invalidXML errmsg)
  | some u => pure u

/-- Replace the property list (the parse path assigns `_properties`). -/
def VNode.withProperties : VNode → List VProperty → VNode
  | .mk k p _ a pv b t c, ps => .mk k p ps a pv b t c

/-- Replace the accepts list. -/
def VNode.withAccepts : VNode → List String → VNode
  | .mk k p ps _ pv b t c, a => .mk k p ps a pv b t c

/-- Replace the provides list. -/
def VNode.withProvides : VNode → List String → VNode
  | .mk k p ps a _ b t c, pv => .mk k p ps a pv b t c

/-- Replace the link target. -/
def VNode.withTarget : VNode → Option String → VNode
  | .mk k p ps a pv b _ c, t => .mk k p ps a pv b t c

/-- Replace the children list. -/
def VNode.withChildren : VNode → List VNode → VNode
  | .mk k p ps a pv b t _, c => .mk k p ps a pv b t c

/-- `self._nodes.get(name)` on the ordered child mapping (children are
keyed by `node.name`). -/
def odGet (children : List VNode) (name : String) : Option VNode :=
  children.find? (fun c => c.name = name)

/-- `self._nodes[child.name] = child` on the ordered child mapping:
replace in place when the key exists, append otherwise (`OrderedDict`
update semantics). -/
def odSet : List VNode → VNode → List VNode
  | [], child => [child]
  | c :: cs, child =>
    if c.name = child.name then child :: cs else c :: odSet cs child

/-- `ContainerNode.add_node(node, overwrite=True)` (model.py lines
847-852) including `check_path`: the child's `dirname` must equal the
container's path; with `overwrite=False` an existing child of the same
name raises the duplicate error; the (deep-copied) child is stored under
its name. -/
def add_node (parent child : VNode) (overwrite : Bool := true) : Except VErr VNode :=
  if parent.path ≠ child.dirname then
    throw (VErr.invalidArgument (parent.path ++ " is not a parent of " ++ child.path))
  else if ¬overwrite ∧ (odGet parent.children child.name).isSome then
    throw (VErr.invalidArgument ("duplicate node " ++ child.path))
  else
    pure (parent.withChildren (odSet parent.children child))

/-- `Node.create_node(node_uri, node_type, node_busy)` (model.py lines
546-560): dispatch on the six `vos:*` literals (an unknown tag raises
`InvalidURI` before the uri is touched); each branch normalizes the uri
into a path (`urlparse(None)` inside `uri_to_path` is a `TypeError`).
`busy` reaches only the `DataNode` family; `LinkNode` starts with target
`None`. -/
def create_node (node_uri node_type : Option String) (node_busy : Bool) :
    Except VErr VNode := do
  let kind ← match node_type with
    | some "vos:Node" => pure NodeKind.node
    | some "vos:DataNode" => pure NodeKind.dataNode
    | some "vos:UnstructuredDataNode" => pure NodeKind.unstructuredDataNode
    | some "vos:StructuredDataNode" => pure NodeKind.structuredDataNode
    | some "vos:ContainerNode" => pure NodeKind.containerNode
    | some "vos:LinkNode" => pure NodeKind.linkNode
    | _ => throw (VErr.invalidURI "Unknown node type.")
  let path ← match node_uri with
    | none => throw VErr.typeError
    | some u => uri_to_path u
  let busy := match kind with
    | NodeKind.dataNode | NodeKind.unstructuredDataNode
    | NodeKind.structuredDataNode | NodeKind.containerNode => node_busy
    | _ => false
  pure (VNode.mk kind path [] [] [] busy none [])

/-- xpath `/vos:node/vos:properties/vos:property`. -/
def propertyElems (root : XMLElem) : List XMLElem :=
  if root.tag = vosTag "node" then
    (root.childrenWithTag (vosTag "properties")).flatMap
      (fun pe => pe.childrenWithTag (vosTag "property"))
  else []

/-- xpath `/vos:node/vos:accepts/vos:view`. -/
def acceptsElems (root : XMLElem) : List XMLElem :=
  if root.tag = vosTag "node" then
    (root.childrenWithTag (vosTag "accepts")).flatMap
      (fun pe => pe.childrenWithTag (vosTag "view"))
  else []

/-- xpath `/vos:node/vos:provides/vos:view`. -/
def providesElems (root : XMLElem) : List XMLElem :=
  if root.tag = vosTag "node" then
    (root.childrenWithTag (vosTag "provides")).flatMap
      (fun pe => pe.childrenWithTag (vosTag "view"))
  else []

/-- xpath `/vos:node/vos:nodes/vos:node`. -/
def nodesElems (root : XMLElem) : List XMLElem :=
  if root.tag = vosTag "node" then
    (root.childrenWithTag (vosTag "nodes")).flatMap
      (fun pe => pe.childrenWithTag (vosTag "node"))
  else []

/-- The child reference element a container emits for one child
(uri and type attributes only, children are not inlined). -/
def childRefElem (c : VNode) : XMLElem :=
  XMLElem.mk (vosTag "node")
    [("uri", "vos://icrar.org!vospace/" ++ c.path),
     (xsiTag "type", nodeTypeText c.kind)]
    none []

/-- `Node.toxml` (model.py lines 609-623): the `vos:node` element with
`xsi:type` and computed `uri` attributes and, when properties exist, a
`vos:properties` element listing them in stored order. -/
def node_toxml_base (n : VNode) : XMLElem :=
  XMLElem.mk (vosTag "node")
    [(xsiTag "type", nodeTypeText n.kind),
     ("uri", "vos://icrar.org!vospace/" ++ n.path)]
    none
    (if n.properties.isEmpty then []
     else [XMLElem.mk (vosTag "properties") [] none (n.properties.map emitProperty)])

/-- Serialization (`tostring`) per variant, following the source's method
resolution: a plain `Node` emits the base document; the `DataNode` family
adds the `busy` attribute and the accepts/provides view lists (DataNode.tostring,
lines 746-759); a `ContainerNode` overrides `tostring` and calls
`super().toxml()` — which resolves to `Node.toxml` — so it emits the base
plus the always-present `vos:nodes` child list (children referenced by uri
and type only) and NO busy attribute or view lists (lines 854-861);
a `LinkNode` likewise emits the base plus the `vos:target` element
(lines 659-662). -/
def node_tostring (n : VNode) : XMLElem :=
  let base := node_toxml_base n
  match n.kind with
  | NodeKind.node => base
  | NodeKind.dataNode | NodeKind.unstructuredDataNode
  | NodeKind.structuredDataNode =>
    XMLElem.mk base.tag
      (base.attrs ++ [("busy", if n.busy then "true" else "false")])
      base.text
      (base.children ++
       (if n.accepts.isEmpty then []
        else [XMLElem.mk (vosTag "accepts") [] none (n.accepts.map mkViewElem)]) ++
       (if n.provides.isEmpty then []
        else [XMLElem.mk (vosTag "provides") [] none (n.provides.map mkViewElem)]))
  | NodeKind.containerNode =>
    XMLElem.mk base.tag base.attrs base.text
      (base.children ++
       [XMLElem.mk (vosTag "nodes") [] none (n.children.map childRefElem)])
  | NodeKind.linkNode =>
    XMLElem.mk base.tag base.attrs base.text
      (base.children ++ [XMLElem.mk (vosTag "target") [] n.target []])

/-- `Node.fromstring` (model.py lines 562-574) plus the `build_node`
chain of the dispatched class: read `uri`, `xsi:type` and `busy` from the
root, construct the variant, parse and sort the properties, then the
variant-specific parts — views for the `DataNode` family, views plus the
child list for `ContainerNode` (each child re-read through `create_node`
and attached with `add_node`; the source reads the child busy flag from
the ROOT's `busy` attribute, line 790), the required `vos:target` text for
`LinkNode`. -/
def node_fromstring (root : XMLElem) : Except VErr VNode := do
  let node_uri := root.getAttr "uri"
  let node_type := root.getAttr (xsiTag "type")
  let node_busy := ((root.getAttr "busy").getD "false") = "true"
  let n0 ← create_node node_uri node_type node_busy
  let props0 ← (propertyElems root).mapM parsePropertyElem
  let props := sortBy (fun p : VProperty => p.uri) props0
  match n0.kind with
  | NodeKind.node => pure (n0.withProperties props)
  | NodeKind.dataNode | NodeKind.unstructuredDataNode
  | NodeKind.structuredDataNode => do
    let accepts ← (acceptsElems root).mapM
      (parseViewElem "Accepts URI does not exist.")
    let provides ← (providesElems root).mapM
      (parseViewElem "Provides URI does not exist.")
    pure (((n0.withProperties props).withAccepts accepts).withProvides provides)
  | NodeKind.containerNode => do
    let accepts ← (acceptsElems root).mapM
      (parseViewElem "Accepts URI does not exist.")
    let provides ← (providesElems root).mapM
      (parseViewElem "Provides URI does not exist.")
    (nodesElems root).foldlM
      (fun acc e => do
        let child ← create_node (e.getAttr "uri") (e.getAttr (xsiTag "type"))
          (((root.getAttr "busy").getD "false") = "true")
        add_node acc child true)
      (((n0.withProperties props).withAccepts accepts).withProvides provides)
  | NodeKind.linkNode =>
    match (root.childrenWithTag (vosTag "target")).head? with
    | none => throw (VErr.invalidXML "vos:target target does not exist.")
    | some te => pure ((n0.withProperties props).withTarget te.text)

/-- Stable insertion into a list whose elements all have keys at least the
inserted one places it in front. -/
theorem insortBy_le_head (key : α → String) (x : α) (l : List α)
    (h : ∀ y ∈ l, pyStrLe (key x) (key y) = true) : insortBy key x l = x :: l := by
  cases l with
  | nil => rfl
  | cons y ys =>
    unfold insortBy
    rw [if_pos (h y (by simp))]

/-- Python's stable sort is the identity on an already-sorted list. -/
theorem sortBy_sorted_eq (key : α → String) : ∀ l : List α,
    l.Pairwise (fun a b => pyStrLe (key a) (key b) = true) → sortBy key l = l := by
  intro l hl
  induction l with
  | nil => rfl
  | cons x xs ih =>
    rw [List.pairwise_cons] at hl
    unfold sortBy
    rw [ih hl.2, insortBy_le_head key x xs hl.1]

/-- Parsing the emitted property list recovers it exactly, provided every
uri validates, every read-only flag is an actual boolean, and every delete
sentinel has the `DeleteProperty` shape (no value, read-only false) — the
invariants the `Property`/`DeleteProperty` constructors establish. -/
theorem parseProps_roundtrip : ∀ ps : List VProperty,
    (∀ p ∈ ps, ∃ u, validate_property_uri p.uri = Except.ok u) →
    (∀ p ∈ ps, p.read_only ≠ none) →
    (∀ p ∈ ps, p.isDelete = true → p.value = none ∧ p.read_only = some false) →
    (ps.map emitProperty).mapM parsePropertyElem = Except.ok ps := by
  intro ps hvalid hro hdel
  induction ps with
  | nil => rfl
  | cons p rest ih =>
    obtain ⟨u, hu⟩ := hvalid p (by simp)
    have hone : parsePropertyElem (emitProperty p) = Except.ok p := by
      obtain ⟨puri, pval, pro, pdel⟩ := p
      simp only [VProperty.uri] at hu
      cases pdel with
      | false =>
        unfold parsePropertyElem emitProperty
        cases pro with
        | none => exact absurd rfl (hro ⟨puri, pval, none, false⟩ (by simp))
        | some b =>
          cases b <;>
            simp [XMLElem.getAttr, XMLElem.attrs, XMLElem.text, List.find?,
              xsiTag, pyBoolStr, hu]
      | true =>
        obtain ⟨hval, hrof⟩ := hdel ⟨puri, pval, pro, true⟩ (by simp) rfl
        simp only [VProperty.value] at hval
        simp only [VProperty.read_only] at hrof
        subst hval
        subst hrof
        unfold parsePropertyElem emitProperty
        simp [XMLElem.getAttr, XMLElem.attrs, XMLElem.text, List.find?,
          xsiTag, pyBoolStr, hu]
    rw [List.map_cons, List.mapM_cons, hone]
    simp only [bind, Except.bind]
    rw [ih (fun q hq => hvalid q (by simp [hq]))
        (fun q hq => hro q (by simp [hq]))
        (fun q hq => hdel q (by simp [hq]))]
    rfl

/-- Parsing the emitted view list recovers the uris exactly. -/
theorem parseViews_roundtrip (msg : String) : ∀ vs : List String,
    (vs.map mkViewElem).mapM (parseViewElem msg) = Except.ok vs := by
  intro vs
  induction vs with
  | nil => rfl
  | cons v rest ih =>
    rw [List.map_cons, List.mapM_cons]
    have hone : parseViewElem msg (mkViewElem v) = Except.ok v := by
      unfold parseViewElem mkViewElem
      simp [XMLElem.getAttr, XMLElem.attrs, List.find?]
      rfl
    rw [hone]
    simp only [bind, Except.bind]
    rw [ih]
    rfl

@[simp] theorem withChildren_kind (n : VNode) (c : List VNode) :
    (n.withChildren c).kind = n.kind := by cases n; rfl

@[simp] theorem withChildren_path (n : VNode) (c : List VNode) :
    (n.withChildren c).path = n.path := by cases n; rfl

@[simp] theorem withChildren_properties (n : VNode) (c : List VNode) :
    (n.withChildren c).properties = n.properties := by cases n; rfl

@[simp] theorem withChildren_children (n : VNode) (c : List VNode) :
    (n.withChildren c).children = c := by cases n; rfl

@[simp] theorem withProperties_kind (n : VNode) (ps : List VProperty) :
    (n.withProperties ps).kind = n.kind := by cases n; rfl

@[simp] theorem withProperties_path (n : VNode) (ps : List VProperty) :
    (n.withProperties ps).path = n.path := by cases n; rfl

@[simp] theorem withProperties_properties (n : VNode) (ps : List VProperty) :
    (n.withProperties ps).properties = ps := by cases n; rfl

@[simp] theorem withAccepts_kind (n : VNode) (a : List String) :
    (n.withAccepts a).kind = n.kind := by cases n; rfl

@[simp] theorem withAccepts_path (n : VNode) (a : List String) :
    (n.withAccepts a).path = n.path := by cases n; rfl

@[simp] theorem withAccepts_properties (n : VNode) (a : List String) :
    (n.withAccepts a).properties = n.properties := by cases n; rfl

@[simp] theorem withProvides_kind (n : VNode) (a : List String) :
    (n.withProvides a).kind = n.kind := by cases n; rfl

@[simp] theorem withProvides_path (n : VNode) (a : List String) :
    (n.withProvides a).path = n.path := by cases n; rfl

@[simp] theorem withProvides_properties (n : VNode) (a : List String) :
    (n.withProvides a).properties = n.properties := by cases n; rfl

@[simp] theorem withTarget_kind (n : VNode) (t : Option String) :
    (n.withTarget t).kind = n.kind := by cases n; rfl

@[simp] theorem withTarget_path (n : VNode) (t : Option String) :
    (n.withTarget t).path = n.path := by cases n; rfl

@[simp] theorem withTarget_properties (n : VNode) (t : Option String) :
    (n.withTarget t).properties = n.properties := by cases n; rfl

@[simp] theorem VNode_kind_mk (k p ps a pv b t c) :
    (VNode.mk k p ps a pv b t c).kind = k := rfl

@[simp] theorem VNode_path_mk (k p ps a pv b t c) :
    (VNode.mk k p ps a pv b t c).path = p := rfl

@[simp] theorem VNode_properties_mk (k p ps a pv b t c) :
    (VNode.mk k p ps a pv b t c).properties = ps := rfl

@[simp] theorem VNode_children_mk (k p ps a pv b t c) :
    (VNode.mk k p ps a pv b t c).children = c := rfl

@[simp] theorem VNode_busy_mk (k p ps a pv b t c) :
    (VNode.mk k p ps a pv b t c).busy = b := rfl

@[simp] theorem VNode_target_mk (k p ps a pv b t c) :
    (VNode.mk k p ps a pv b t c).target = t := rfl

@[simp] theorem VNode_accepts_mk (k p ps a pv b t c) :
    (VNode.mk k p ps a pv b t c).accepts = a := rfl

@[simp] theorem VNode_provides_mk (k p ps a pv b t c) :
    (VNode.mk k p ps a pv b t c).provides = pv := rfl

/-- The busy flag `create_node` actually stores: the `DataNode` family
takes the parsed flag, plain and link nodes have none. -/
def condBusy (k : NodeKind) (b : Bool) : Bool :=
  match k with
  | NodeKind.dataNode | NodeKind.unstructuredDataNode
  | NodeKind.structuredDataNode | NodeKind.containerNode => b
  | _ => false

/-- `create_node` on a known type literal and a uri that normalizes. -/
theorem create_node_ok (k : NodeKind) (u p : String) (b : Bool)
    (hu : uri_to_path u = Except.ok p) :
    create_node (some u) (some (nodeTypeText k)) b =
      Except.ok (VNode.mk k p [] [] [] (condBusy k b) none []) := by
  cases k <;>
    (unfold create_node nodeTypeText
     simp only [bind, Except.bind, pure, Except.pure, hu, condBusy])

/-- Re-reading a container's emitted child references and attaching them
with `add_node` succeeds and never changes the container's kind, path or
properties, provided every child's uri round-trips and its dirname is the
container's path (the `check_path` invariant). -/
theorem container_children_fold (bflag : Bool) : ∀ (cs : List VNode) (acc : VNode),
    (∀ c ∈ cs, uri_to_path ("vos://icrar.org!vospace/" ++ c.path) = Except.ok c.path ∧
      pathDirname c.path = acc.path) →
    ∃ m, (cs.map childRefElem).foldlM
        (fun acc e => do
          let child ← create_node (e.getAttr "uri") (e.getAttr (xsiTag "type")) bflag
          add_node acc child true) acc = Except.ok m ∧
      m.kind = acc.kind ∧ m.path = acc.path ∧ m.properties = acc.properties := by
  intro cs
  induction cs with
  | nil =>
    intro acc _
    exact ⟨acc, rfl, rfl, rfl, rfl⟩
  | cons c rest ih =>
    intro acc hch
    obtain ⟨hcuri, hcdir⟩ := hch c (by simp)
    have hattr_uri : (childRefElem c).getAttr "uri" =
        some ("vos://icrar.org!vospace/" ++ c.path) := by
      simp [childRefElem, XMLElem.getAttr, XMLElem.attrs, List.find?]
    have hattr_type : (childRefElem c).getAttr (xsiTag "type") =
        some (nodeTypeText c.kind) := by
      simp [childRefElem, XMLElem.getAttr, XMLElem.attrs, List.find?, xsiTag]
    have hcreate : create_node ((childRefElem c).getAttr "uri")
        ((childRefElem c).getAttr (xsiTag "type")) bflag =
        Except.ok (VNode.mk c.kind c.path [] [] [] (condBusy c.kind bflag) none []) := by
      rw [hattr_uri, hattr_type]
      exact create_node_ok c.kind _ c.path bflag hcuri
    have hchild_dir :
        (VNode.mk c.kind c.path [] [] [] (condBusy c.kind bflag) none []).dirname =
        acc.path := by
      simp [VNode.dirname, hcdir]
    have hadd : add_node acc
        (VNode.mk c.kind c.path [] [] [] (condBusy c.kind bflag) none []) true =
        Except.ok (acc.withChildren (odSet acc.children
          (VNode.mk c.kind c.path [] [] [] (condBusy c.kind bflag) none []))) := by
      unfold add_node
      rw [if_neg (by rw [hchild_dir]; simp), if_neg (by simp)]
      rfl
    obtain ⟨m, hm, hk2, hp2, hpr2⟩ := ih
      (acc.withChildren (odSet acc.children
        (VNode.mk c.kind c.path [] [] [] (condBusy c.kind bflag) none [])))
      (by
        intro d hd
        obtain ⟨h1, h2⟩ := hch d (by simp [hd])
        exact ⟨h1, by simpa using h2⟩)
    refine ⟨m, ?_, by simpa using hk2, by simpa using hp2, by simpa using hpr2⟩
    rw [List.map_cons, List.foldlM_cons]
    simp only [bind, Except.bind, hcreate]
    rw [hadd]
    exact hm

@[simp] theorem XMLElem_tag_mk (t a x c) : (XMLElem.mk t a x c).tag = t := rfl

@[simp] theorem XMLElem_attrs_mk (t a x c) : (XMLElem.mk t a x c).attrs = a := rfl

@[simp] theorem XMLElem_text_mk (t a x c) : (XMLElem.mk t a x c).text = x := rfl

@[simp] theorem XMLElem_children_mk (t a x c) : (XMLElem.mk t a x c).children = c := rfl

theorem filter_emitted_props (ps : List VProperty) :
    List.filter (fun e => decide (e.tag = vosTag "property")) (ps.map emitProperty) =
      ps.map emitProperty := by
  refine List.filter_eq_self.mpr ?_
  intro x hx
  obtain ⟨q, _, rfl⟩ := List.mem_map.mp hx
  simp [emitProperty, vosTag]

theorem C3_node_case (p : String) (ps : List VProperty)
    (a pv : List String) (b : Bool) (t : Option String) (c : List VNode)
    (hpath : uri_to_path ("vos://icrar.org!vospace/" ++ p) = Except.ok p)
    (hvalid : ∀ q ∈ ps, ∃ u, validate_property_uri q.uri = Except.ok u)
    (hro : ∀ q ∈ ps, q.read_only ≠ none)
    (hdel : ∀ q ∈ ps, q.isDelete = true → q.value = none ∧ q.read_only = some false)
    (hsorted : ps.Pairwise (fun x y => pyStrLe x.uri y.uri = true)) :
    ∃ m, node_fromstring (node_tostring (VNode.mk NodeKind.node p ps a pv b t c)) =
      Except.ok m ∧ m.path = p ∧ m.kind = NodeKind.node ∧ m.properties = ps := by
  have hpe : propertyElems (node_tostring (VNode.mk NodeKind.node p ps a pv b t c)) =
      if ps = [] then [] else ps.map emitProperty := by
    unfold node_tostring node_toxml_base propertyElems XMLElem.childrenWithTag
    by_cases hps : ps = []
    · simp [hps, nodeTypeText, vosTag]
    · simp [hps, nodeTypeText, vosTag]
      intro q _
      simp [emitProperty, vosTag]
  have g1 : (node_tostring (VNode.mk NodeKind.node p ps a pv b t c)).getAttr "uri" =
      some ("vos://icrar.org!vospace/" ++ p) := by
    unfold node_tostring node_toxml_base
    simp [XMLElem.getAttr, List.find?, xsiTag, nodeTypeText]
  have g2 : (node_tostring (VNode.mk NodeKind.node p ps a pv b t c)).getAttr (xsiTag "type") =
      some "vos:Node" := by
    unfold node_tostring node_toxml_base
    simp [XMLElem.getAttr, List.find?, xsiTag, nodeTypeText]
  have g3 : (node_tostring (VNode.mk NodeKind.node p ps a pv b t c)).getAttr "busy" =
      none := by
    unfold node_tostring node_toxml_base
    simp [XMLElem.getAttr, List.find?, xsiTag, nodeTypeText]
  unfold node_fromstring
  rw [g1, g2, g3, hpe]
  have hcreate := create_node_ok NodeKind.node ("vos://icrar.org!vospace/" ++ p) p
    (((none : Option String).getD "false") = "true") hpath
  simp only [nodeTypeText] at hcreate
  simp only [bind, Except.bind, hcreate]
  by_cases hps : ps = []
  · subst hps
    simp only [if_pos rfl, List.mapM_nil, bind, Except.bind]
    refine ⟨_, rfl, rfl, rfl, rfl⟩
  · rw [if_neg hps]
    rw [parseProps_roundtrip ps hvalid hro hdel]
    simp only [bind, Except.bind]
    rw [sortBy_sorted_eq _ ps hsorted]
    exact ⟨_, rfl, by simp, by simp, by simp⟩

theorem C3_data_case (k : NodeKind)
    (hk : k = NodeKind.dataNode ∨ k = NodeKind.unstructuredDataNode ∨
          k = NodeKind.structuredDataNode)
    (p : String) (ps : List VProperty)
    (a pv : List String) (b : Bool) (t : Option String) (c : List VNode)
    (hpath : uri_to_path ("vos://icrar.org!vospace/" ++ p) = Except.ok p)
    (hvalid : ∀ q ∈ ps, ∃ u, validate_property_uri q.uri = Except.ok u)
    (hro : ∀ q ∈ ps, q.read_only ≠ none)
    (hdel : ∀ q ∈ ps, q.isDelete = true → q.value = none ∧ q.read_only = some false)
    (hsorted : ps.Pairwise (fun x y => pyStrLe x.uri y.uri = true)) :
    ∃ m, node_fromstring (node_tostring (VNode.mk k p ps a pv b t c)) =
      Except.ok m ∧ m.path = p ∧ m.kind = k ∧ m.properties = ps := by
  have hpe : propertyElems (node_tostring (VNode.mk k p ps a pv b t c)) =
      if ps = [] then [] else ps.map emitProperty := by
    rcases hk with rfl | rfl | rfl <;>
    · unfold node_tostring node_toxml_base propertyElems XMLElem.childrenWithTag
      by_cases hps : ps = [] <;> by_cases has : a = [] <;> by_cases hpvs : pv = [] <;>
        simp [hps, has, hpvs, nodeTypeText, vosTag] <;>
        (try (intro q _; simp [emitProperty, vosTag]))
  have hae : acceptsElems (node_tostring (VNode.mk k p ps a pv b t c)) =
      if a = [] then [] else a.map mkViewElem := by
    rcases hk with rfl | rfl | rfl <;>
    · unfold node_tostring node_toxml_base acceptsElems XMLElem.childrenWithTag
      by_cases hps : ps = [] <;> by_cases has : a = [] <;> by_cases hpvs : pv = [] <;>
        simp [hps, has, hpvs, nodeTypeText, vosTag] <;>
        (try (intro q _; simp [mkViewElem, vosTag]))
  have hpve : providesElems (node_tostring (VNode.mk k p ps a pv b t c)) =
      if pv = [] then [] else pv.map mkViewElem := by
    rcases hk with rfl | rfl | rfl <;>
    · unfold node_tostring node_toxml_base providesElems XMLElem.childrenWithTag
      by_cases hps : ps = [] <;> by_cases has : a = [] <;> by_cases hpvs : pv = [] <;>
        simp [hps, has, hpvs, nodeTypeText, vosTag] <;>
        (try (intro q _; simp [mkViewElem, vosTag]))
  have g1 : (node_tostring (VNode.mk k p ps a pv b t c)).getAttr "uri" =
      some ("vos://icrar.org!vospace/" ++ p) := by
    rcases hk with rfl | rfl | rfl <;>
    · unfold node_tostring node_toxml_base
      simp [XMLElem.getAttr, List.find?, xsiTag, nodeTypeText]
  have g2 : (node_tostring (VNode.mk k p ps a pv b t c)).getAttr (xsiTag "type") =
      some (nodeTypeText k) := by
    rcases hk with rfl | rfl | rfl <;>
    · unfold node_tostring node_toxml_base
      simp [XMLElem.getAttr, List.find?, xsiTag, nodeTypeText]
  unfold node_fromstring
  rw [g1, g2, hpe]
  have hcreate := create_node_ok k ("vos://icrar.org!vospace/" ++ p) p
    ((((node_tostring (VNode.mk k p ps a pv b t c)).getAttr "busy").getD "false") = "true")
    hpath
  simp only [bind, Except.bind, hcreate]
  have hprops : (if ps = [] then ([] : List XMLElem)
      else ps.map emitProperty).mapM parsePropertyElem = Except.ok ps := by
    by_cases hps : ps = []
    · subst hps
      rfl
    · rw [if_neg hps]
      exact parseProps_roundtrip ps hvalid hro hdel
  rw [hprops]
  simp only [bind, Except.bind]
  rw [sortBy_sorted_eq _ ps hsorted]
  rcases hk with rfl | rfl | rfl <;>
  · simp only [VNode_kind_mk]
    rw [hae, hpve]
    have hacc : (if a = [] then ([] : List XMLElem) else a.map mkViewElem).mapM
        (parseViewElem "Accepts URI does not exist.") = Except.ok a := by
      by_cases has : a = []
      · subst has; rfl
      · rw [if_neg has]; exact parseViews_roundtrip _ a
    have hprov : (if pv = [] then ([] : List XMLElem) else pv.map mkViewElem).mapM
        (parseViewElem "Provides URI does not exist.") = Except.ok pv := by
      by_cases hpvs : pv = []
      · subst hpvs; rfl
      · rw [if_neg hpvs]; exact parseViews_roundtrip _ pv
    rw [hacc]
    simp only [bind, Except.bind]
    rw [hprov]
    refine ⟨_, rfl, by simp, by simp, by simp⟩

theorem C3_container_case (p : String) (ps : List VProperty)
    (a pv : List String) (b : Bool) (t : Option String) (c : List VNode)
    (hpath : uri_to_path ("vos://icrar.org!vospace/" ++ p) = Except.ok p)
    (hvalid : ∀ q ∈ ps, ∃ u, validate_property_uri q.uri = Except.ok u)
    (hro : ∀ q ∈ ps, q.read_only ≠ none)
    (hdel : ∀ q ∈ ps, q.isDelete = true → q.value = none ∧ q.read_only = some false)
    (hsorted : ps.Pairwise (fun x y => pyStrLe x.uri y.uri = true))
    (hchildren : ∀ d ∈ c,
      uri_to_path ("vos://icrar.org!vospace/" ++ d.path) = Except.ok d.path ∧
      pathDirname d.path = p) :
    ∃ m, node_fromstring (node_tostring (VNode.mk NodeKind.containerNode p ps a pv b t c)) =
      Except.ok m ∧ m.path = p ∧ m.kind = NodeKind.containerNode ∧ m.properties = ps := by
  have hpe : propertyElems (node_tostring (VNode.mk NodeKind.containerNode p ps a pv b t c)) =
      if ps = [] then [] else ps.map emitProperty := by
    unfold node_tostring node_toxml_base propertyElems XMLElem.childrenWithTag
    by_cases hps : ps = [] <;>
      simp [hps, nodeTypeText, vosTag] <;>
      (try (intro q _; simp [emitProperty, vosTag]))
  have hae : acceptsElems (node_tostring (VNode.mk NodeKind.containerNode p ps a pv b t c)) =
      [] := by
    unfold node_tostring node_toxml_base acceptsElems XMLElem.childrenWithTag
    by_cases hps : ps = [] <;> simp [hps, nodeTypeText, vosTag]
  have hpve : providesElems (node_tostring (VNode.mk NodeKind.containerNode p ps a pv b t c)) =
      [] := by
    unfold node_tostring node_toxml_base providesElems XMLElem.childrenWithTag
    by_cases hps : ps = [] <;> simp [hps, nodeTypeText, vosTag]
  have hne : nodesElems (node_tostring (VNode.mk NodeKind.containerNode p ps a pv b t c)) =
      c.map childRefElem := by
    unfold node_tostring node_toxml_base nodesElems XMLElem.childrenWithTag
    by_cases hps : ps = [] <;>
      simp [hps, nodeTypeText, vosTag] <;>
      (try (intro q _; simp [childRefElem, vosTag]))
  have g1 : (node_tostring (VNode.mk NodeKind.containerNode p ps a pv b t c)).getAttr "uri" =
      some ("vos://icrar.org!vospace/" ++ p) := by
    unfold node_tostring node_toxml_base
    simp [XMLElem.getAttr, List.find?, xsiTag, nodeTypeText]
  have g2 : (node_tostring (VNode.mk NodeKind.containerNode p ps a pv b t c)).getAttr (xsiTag "type") =
      some (nodeTypeText NodeKind.containerNode) := by
    unfold node_tostring node_toxml_base
    simp [XMLElem.getAttr, List.find?, xsiTag, nodeTypeText]
  unfold node_fromstring
  rw [g1, g2, hpe, hae, hpve, hne]
  have hcreate := create_node_ok NodeKind.containerNode ("vos://icrar.org!vospace/" ++ p) p
    ((((node_tostring (VNode.mk NodeKind.containerNode p ps a pv b t c)).getAttr "busy").getD "false") = "true")
    hpath
  simp only [bind, Except.bind, hcreate]
  have hprops : (if ps = [] then ([] : List XMLElem)
      else ps.map emitProperty).mapM parsePropertyElem = Except.ok ps := by
    by_cases hps : ps = []
    · subst hps
      rfl
    · rw [if_neg hps]
      exact parseProps_roundtrip ps hvalid hro hdel
  rw [hprops]
  simp only [bind, Except.bind]
  rw [sortBy_sorted_eq _ ps hsorted]
  simp only [VNode_kind_mk, List.mapM_nil]
  obtain ⟨m, hm, hk2, hp2, hpr2⟩ := container_children_fold
    (((node_tostring (VNode.mk NodeKind.containerNode p ps a pv b t c)).getAttr "busy").getD "false" = "true")
    c
    (((VNode.mk NodeKind.containerNode p [] [] []
        (condBusy NodeKind.containerNode
          (((node_tostring (VNode.mk NodeKind.containerNode p ps a pv b t c)).getAttr "busy").getD "false" = "true"))
        none []).withProperties ps).withAccepts [] |>.withProvides [])
    (by
      intro d hd
      obtain ⟨h1, h2⟩ := hchildren d hd
      refine ⟨h1, ?_⟩
      simp [h2])
  refine ⟨m, ?_, ?_, ?_, ?_⟩
  · simp only [bind, Except.bind, pure, Except.pure]
    exact hm
  · rw [hp2]; simp
  · rw [hk2]; simp
  · rw [hpr2]; simp

theorem C3_link_case (p : String) (ps : List VProperty)
    (a pv : List String) (b : Bool) (t : Option String) (c : List VNode)
    (hpath : uri_to_path ("vos://icrar.org!vospace/" ++ p) = Except.ok p)
    (hvalid : ∀ q ∈ ps, ∃ u, validate_property_uri q.uri = Except.ok u)
    (hro : ∀ q ∈ ps, q.read_only ≠ none)
    (hdel : ∀ q ∈ ps, q.isDelete = true → q.value = none ∧ q.read_only = some false)
    (hsorted : ps.Pairwise (fun x y => pyStrLe x.uri y.uri = true)) :
    ∃ m, node_fromstring (node_tostring (VNode.mk NodeKind.linkNode p ps a pv b t c)) =
      Except.ok m ∧ m.path = p ∧ m.kind = NodeKind.linkNode ∧ m.properties = ps := by
  have hpe : propertyElems (node_tostring (VNode.mk NodeKind.linkNode p ps a pv b t c)) =
      if ps = [] then [] else ps.map emitProperty := by
    unfold node_tostring node_toxml_base propertyElems XMLElem.childrenWithTag
    by_cases hps : ps = [] <;>
      simp [hps, nodeTypeText, vosTag] <;>
      (try (intro q _; simp [emitProperty, vosTag]))
  have hte : (node_tostring (VNode.mk NodeKind.linkNode p ps a pv b t c)).childrenWithTag
      (vosTag "target") = [XMLElem.mk (vosTag "target") [] t []] := by
    unfold node_tostring node_toxml_base XMLElem.childrenWithTag
    by_cases hps : ps = [] <;> simp [hps, nodeTypeText, vosTag]
  have g1 : (node_tostring (VNode.mk NodeKind.linkNode p ps a pv b t c)).getAttr "uri" =
      some ("vos://icrar.org!vospace/" ++ p) := by
    unfold node_tostring node_toxml_base
    simp [XMLElem.getAttr, List.find?, xsiTag, nodeTypeText]
  have g2 : (node_tostring (VNode.mk NodeKind.linkNode p ps a pv b t c)).getAttr (xsiTag "type") =
      some (nodeTypeText NodeKind.linkNode) := by
    unfold node_tostring node_toxml_base
    simp [XMLElem.getAttr, List.find?, xsiTag, nodeTypeText]
  unfold node_fromstring
  rw [g1, g2, hpe, hte]
  have hcreate := create_node_ok NodeKind.linkNode ("vos://icrar.org!vospace/" ++ p) p
    ((((node_tostring (VNode.mk NodeKind.linkNode p ps a pv b t c)).getAttr "busy").getD "false") = "true")
    hpath
  simp only [bind, Except.bind, hcreate]
  have hprops : (if ps = [] then ([] : List XMLElem)
      else ps.map emitProperty).mapM parsePropertyElem = Except.ok ps := by
    by_cases hps : ps = []
    · subst hps
      rfl
    · rw [if_neg hps]
      exact parseProps_roundtrip ps hvalid hro hdel
  rw [hprops]
  simp only [bind, Except.bind]
  rw [sortBy_sorted_eq _ ps hsorted]
  refine ⟨_, rfl, by simp, by simp, by simp⟩

/-- C3: for every node variant, parsing the node's own serialization
(`Node.fromstring(node.tostring())`) succeeds and yields a node equal to
the original on path, type tag, and sorted property list — under the
constructor invariants (path normalized by `uri_to_path`, property uris
valid, read-only flags boolean, delete sentinels of `DeleteProperty`
shape, properties sorted by uri, container children rooted at the
container's path). -/
theorem C3_serialization_roundtrip (n : VNode)
    (hpath : uri_to_path ("vos://icrar.org!vospace/" ++ n.path) = Except.ok n.path)
    (hvalid : ∀ q ∈ n.properties, ∃ u, validate_property_uri q.uri = Except.ok u)
    (hro : ∀ q ∈ n.properties, q.read_only ≠ none)
    (hdel : ∀ q ∈ n.properties, q.isDelete = true → q.value = none ∧ q.read_only = some false)
    (hsorted : n.properties.Pairwise (fun x y => pyStrLe x.uri y.uri = true))
    (hchildren : ∀ d ∈ n.children,
      uri_to_path ("vos://icrar.org!vospace/" ++ d.path) = Except.ok d.path ∧
      pathDirname d.path = n.path) :
    ∃ m, node_fromstring (node_tostring n) = Except.ok m ∧
      m.path = n.path ∧ m.kind = n.kind ∧ m.properties = n.properties := by
  obtain ⟨k, p, ps, a, pv, b, t, c⟩ := n
  simp only [VNode_path_mk, VNode_properties_mk, VNode_children_mk,
    VNode_kind_mk] at *
  cases k with
  | node => exact C3_node_case p ps a pv b t c hpath hvalid hro hdel hsorted
  | dataNode =>
    exact C3_data_case _ (Or.inl rfl) p ps a pv b t c hpath hvalid hro hdel hsorted
  | unstructuredDataNode =>
    exact C3_data_case _ (Or.inr (Or.inl rfl)) p ps a pv b t c hpath hvalid hro hdel hsorted
  | structuredDataNode =>
    exact C3_data_case _ (Or.inr (Or.inr rfl)) p ps a pv b t c hpath hvalid hro hdel hsorted
  | containerNode =>
    exact C3_container_case p ps a pv b t c hpath hvalid hro hdel hsorted hchildren
  | linkNode => exact C3_link_case p ps a pv b t c hpath hvalid hro hdel hsorted

def w3props : List VProperty :=
  [mkProperty "ivo://ex/vospace#alpha" (some "1") true,
   mkProperty "ivo://ex/vospace#beta" none false,
   mkDeleteProperty "ivo://ex/vospace#gamma"]

def w3node30 : VNode := VNode.mk NodeKind.node "a/b" w3props [] [] false none []

def w3data : VNode := VNode.mk NodeKind.dataNode "a/b" w3props
  ["ivo://ex/vospace#v1"] ["ivo://ex/vospace#v2"] true none []

def w3container : VNode := VNode.mk NodeKind.containerNode "a" w3props [] [] false none
  [VNode.mk NodeKind.linkNode "a/l" [] [] [] false (some "tgt") [],
   VNode.mk NodeKind.containerNode "a/c" [] [] [] true none []]

def w3link : VNode := VNode.mk NodeKind.linkNode "a/b" w3props [] [] false
  (some "vos://ex!vospace/x") []

theorem C3_roundtrip_props_hyp : ∀ q ∈ w3props, ∃ u, validate_property_uri q.uri = Except.ok u := by
  intro q hq
  unfold w3props at hq
  rcases List.mem_cons.mp hq with rfl | hq
  · exact ⟨_, rfl⟩
  rcases List.mem_cons.mp hq with rfl | hq
  · exact ⟨_, rfl⟩
  rcases List.mem_cons.mp hq with rfl | hq
  · exact ⟨_, rfl⟩
  · cases hq

/-- Witness for C3: concrete nodes of each variant shape (plain, data,
container with two children, link) round-tripping on path, type tag and
property list. -/
theorem C3_serialization_roundtrip_witness :
    (∃ m, node_fromstring (node_tostring w3node30) = Except.ok m ∧
      m.path = w3node30.path ∧ m.kind = w3node30.kind ∧
      m.properties = w3node30.properties) ∧
    (∃ m, node_fromstring (node_tostring w3data) = Except.ok m ∧
      m.path = w3data.path ∧ m.kind = w3data.kind ∧
      m.properties = w3data.properties) ∧
    (∃ m, node_fromstring (node_tostring w3container) = Except.ok m ∧
      m.path = w3container.path ∧ m.kind = w3container.kind ∧
      m.properties = w3container.properties) ∧
    (∃ m, node_fromstring (node_tostring w3link) = Except.ok m ∧
      m.path = w3link.path ∧ m.kind = w3link.kind ∧
      m.properties = w3link.properties) :=
  ⟨C3_serialization_roundtrip w3node30 (by decide) C3_roundtrip_props_hyp
    (by decide) (by decide) (by decide) (by intro d hd; cases hd),
   C3_serialization_roundtrip w3data (by decide) C3_roundtrip_props_hyp
    (by decide) (by decide) (by decide) (by intro d hd; cases hd),
   C3_serialization_roundtrip w3container (by decide) C3_roundtrip_props_hyp
    (by decide) (by decide) (by decide)
    (by
      intro d hd
      rcases List.mem_cons.mp hd with rfl | hd
      · exact ⟨by decide, by decide⟩
      rcases List.mem_cons.mp hd with rfl | hd
      · exact ⟨by decide, by decide⟩
      · cases hd),
   C3_serialization_roundtrip w3link (by decide) C3_roundtrip_props_hyp
    (by decide) (by decide) (by decide) (by intro d hd; cases hd)⟩

/-- `child.kind` is the container variant. -/
def isContainer (n : VNode) : Bool := n.kind = NodeKind.containerNode

/-- `ContainerNode._insert_node_into_tree` (model.py lines 814-835): pop
the next segment; if a child of that name exists and is a container with
segments remaining, recurse into it (the recursion mutates the stored
child, embedded as replacing it); otherwise an existing child is either
overwritten through `add_node` (the source then asserts no segments
remain) or raises the duplicate error; with no matching child the node is
attached as a leaf when no segments remain and `no path to` is raised
otherwise. -/
def insertAux : List String → VNode → VNode → Bool → Except VErr VNode
  | [], parent, _, _ => pure parent
  | name :: rest, parent, node_to_insert, overwrite =>
    match odGet parent.children name with
    | some child =>
      if isContainer child ∧ rest ≠ [] then do
        let child2 ← insertAux rest child node_to_insert overwrite
        pure (parent.withChildren (odSet parent.children child2))
      else if overwrite then do
        let p2 ← add_node parent node_to_insert true
        if rest = [] then pure p2 else throw VErr.assertionError
      else
        throw (VErr.invalidArgument ("duplicate node " ++ node_to_insert.path))
    | none =>
      if rest = [] then add_node parent node_to_insert true
      else throw (VErr.invalidArgument ("no path to " ++ node_to_insert.path))

/-- `ContainerNode.insert_node_into_tree` (model.py lines 837-845): the
node's path must extend the container's path strictly; the relative path
is split into segments and walked by the helper. -/
def insert_node_into_tree (self node : VNode) (overwrite : Bool := false) :
    Except VErr VNode :=
  if ¬ strStartsWith node.path self.path then
    throw (VErr.invalidArgument "Invalid node path.")
  else if node.path = self.path then
    throw (VErr.invalidArgument "Can not insert over root node.")
  else
    let node_path := String.mk (node.path.data.drop self.path.data.length)
    insertAux (splitPath node_path) self node overwrite

/-- When no stored child carries the new node's name, the ordered-mapping
update appends it. -/
theorem odSet_append (node : VNode) : ∀ children : List VNode,
    odGet children node.name = none → odSet children node = children ++ [node] := by
  intro children
  induction children with
  | nil => intro _; rfl
  | cons c cs ih =>
    intro h
    unfold odGet at h
    unfold odSet
    by_cases hc : c.name = node.name
    · rw [List.find?_cons_of_pos _ (by simp [hc])] at h
      cases h
    · rw [List.find?_cons_of_neg _ (by simp [hc])] at h
      rw [if_neg hc, ih h]
      simp

/-- C6: `insert_node_into_tree` on a strict descendant path walks the
segments downward: with an existing matching child that is a container and
segments remaining it recurses into that child (the result is the
container with the recursively updated child in place); with an existing
matching child and no segments remaining it replaces the entry when
overwrite is true and raises the duplicate `InvalidArgument` when false;
with no matching child it raises `InvalidArgument` ("no path to" the
target) when segments remain — no intermediate containers are created —
and attaches the node as a new appended leaf when none remain.  (When no
segments remain the single segment is the node's own name.) -/
theorem C6_guided_tree_insertion (self node : VNode) (ow : Bool)
    (name : String) (rest : List String)
    (hpre : strStartsWith node.path self.path = true)
    (hne : node.path ≠ self.path)
    (hsplit : splitPath (String.mk (node.path.data.drop self.path.data.length)) =
      name :: rest)
    (hname : rest = [] → node.name = name) :
    (∀ child, odGet self.children name = some child →
      isContainer child = true → rest ≠ [] →
      ((∀ e, insertAux rest child node ow = Except.error e →
        insert_node_into_tree self node ow = Except.error e) ∧
       (∀ child2, insertAux rest child node ow = Except.ok child2 →
        insert_node_into_tree self node ow =
          Except.ok (self.withChildren (odSet self.children child2))))) ∧
    (∀ child, odGet self.children name = some child → rest = [] →
      ((ow = false →
        insert_node_into_tree self node ow =
          Except.error (VErr.invalidArgument ("duplicate node " ++ node.path))) ∧
       (ow = true → node.dirname = self.path →
        insert_node_into_tree self node ow =
          Except.ok (self.withChildren (odSet self.children node))))) ∧
    (odGet self.children name = none → rest ≠ [] →
      insert_node_into_tree self node ow =
        Except.error (VErr.invalidArgument ("no path to " ++ node.path))) ∧
    (odGet self.children name = none → rest = [] → node.dirname = self.path →
      insert_node_into_tree self node ow =
        Except.ok (self.withChildren (self.children ++ [node]))) := by
  have hmain : insert_node_into_tree self node ow =
      insertAux (name :: rest) self node ow := by
    unfold insert_node_into_tree
    rw [if_neg (by simp [hpre]), if_neg hne]
    show insertAux (splitPath (String.mk (node.path.data.drop self.path.data.length)))
      self node ow = insertAux (name :: rest) self node ow
    rw [hsplit]
  have hadd : node.dirname = self.path →
      add_node self node true =
        Except.ok (self.withChildren (odSet self.children node)) := by
    intro hdir
    unfold add_node
    rw [if_neg (show ¬ self.path ≠ node.dirname by simp [hdir]),
        if_neg (show ¬ (¬ (true = true) ∧
          (odGet self.children node.name).isSome = true) by simp)]
    rfl
  refine ⟨?_, ?_, ?_, ?_⟩
  · intro child hchild hcont hrest
    rw [hmain]
    simp only [insertAux, hchild]
    rw [if_pos (show isContainer child = true ∧ rest ≠ [] from ⟨hcont, hrest⟩)]
    constructor
    · intro e he
      simp only [bind, Except.bind, he]
    · intro child2 h2
      simp only [bind, Except.bind, h2]
      rfl
  · intro child hchild hrest
    subst hrest
    rw [hmain]
    simp only [insertAux, hchild]
    rw [if_neg (show ¬ (isContainer child = true ∧ ([] : List String) ≠ []) by simp)]
    constructor
    · intro how
      subst how
      rw [if_neg (show ¬ ((false : Bool) = true) by simp)]
      rfl
    · intro how hdir
      subst how
      rw [if_pos (show (true : Bool) = true from rfl)]
      rw [show (add_node self node : Except VErr VNode) = add_node self node true from rfl]
      rw [hadd hdir]
      simp only [bind, Except.bind]
      rw [if_pos trivial]
      rfl
  · intro hnone hrest
    rw [hmain]
    simp only [insertAux, hnone]
    rw [if_neg hrest]
    rfl
  · intro hnone hrest hdir
    subst hrest
    rw [hmain]
    simp only [insertAux, hnone]
    rw [if_pos trivial]
    rw [show (add_node self node : Except VErr VNode) = add_node self node true from rfl]
    rw [hadd hdir]
    rw [← hname rfl] at hnone
    rw [odSet_append node self.children hnone]

/-- Leaf `a/b/c` to insert. -/
def w6leafC : VNode := VNode.mk NodeKind.dataNode "a/b/c" [] [] [] false none []

/-- Replacement leaf at the same path. -/
def w6leafC2 : VNode := VNode.mk NodeKind.structuredDataNode "a/b/c" [] [] [] false none []

/-- Existing child container `a/b`. -/
def w6childB : VNode := VNode.mk NodeKind.containerNode "a/b" [] [] [] false none []

/-- Child container `a/b` already holding `a/b/c`. -/
def w6childBC : VNode := VNode.mk NodeKind.containerNode "a/b" [] [] [] false none [w6leafC]

/-- Root container `a` with child container `a/b`. -/
def w6root : VNode := VNode.mk NodeKind.containerNode "a" [] [] [] false none [w6childB]

/-- Root container `a` whose child `a/b` holds `a/b/c`. -/
def w6rootC : VNode := VNode.mk NodeKind.containerNode "a" [] [] [] false none [w6childBC]

/-- Node `a/x/y` with no path to it. -/
def w6nodeXY : VNode := VNode.mk NodeKind.dataNode "a/x/y" [] [] [] false none []

/-- Witness for C6, the spec's example tree (root `a`, child container
`a/b`): inserting `a/b/c` succeeds through the recursion; inserting
`a/x/y` fails with "no path to a/x/y"; re-inserting `a/b/c` with
overwrite disabled fails as a duplicate; with overwrite enabled it
replaces the prior node. -/
theorem C6_guided_tree_insertion_witness :
    insert_node_into_tree w6root w6leafC false =
      Except.ok (w6root.withChildren (odSet w6root.children w6childBC)) ∧
    insert_node_into_tree w6root w6nodeXY false =
      Except.error (VErr.invalidArgument ("no path to " ++ w6nodeXY.path)) ∧
    insert_node_into_tree w6rootC w6leafC2 false =
      Except.error (VErr.invalidArgument ("duplicate node " ++ w6leafC2.path)) ∧
    insert_node_into_tree w6rootC w6leafC2 true =
      Except.ok (w6rootC.withChildren (odSet w6rootC.children
        (w6childBC.withChildren (odSet w6childBC.children w6leafC2)))) := by
  refine ⟨?_, ?_, ?_, ?_⟩
  · exact ((C6_guided_tree_insertion w6root w6leafC false "b" ["c"]
      (by decide) (by decide) rfl
      (fun h => absurd h (by decide))).1 w6childB rfl rfl (by decide)).2
      w6childBC rfl
  · exact ((C6_guided_tree_insertion w6root w6nodeXY false "x" ["y"]
      (by decide) (by decide) rfl
      (fun h => absurd h (by decide))).2.2.1 rfl (by decide))
  · exact ((C6_guided_tree_insertion w6rootC w6leafC2 false "b" ["c"]
      (by decide) (by decide) rfl
      (fun h => absurd h (by decide))).1 w6childBC rfl rfl (by decide)).1
      (VErr.invalidArgument ("duplicate node " ++ w6leafC2.path)) rfl
  · exact ((C6_guided_tree_insertion w6rootC w6leafC2 true "b" ["c"]
      (by decide) (by decide) rfl
      (fun h => absurd h (by decide))).1 w6childBC rfl rfl (by decide)).2
      (w6childBC.withChildren (odSet w6childBC.children w6leafC2)) rfl
